import Mathlib

/-! Top250 crawler: pagination discovery, record extraction, crawl orchestration.

A shallow embedding of `main.go`.

* A Go `string` is modelled as the list of its Unicode code points (`Str`); the markup
  texts are taken to be valid UTF-8, which is what the functions of package `strings`
  used here decode.
* The goquery document tree is modelled by `Node`: a node carries its text content, its
  attributes and, for every selector string, the nodes that `Find` returns below it in
  document order.  The selector engine itself is a library and is not modelled.
* Go `int` is the 64-bit signed integer; `Page` values are `Int` within that range.
* Process termination (`log.Fatalf`, `os.Exit`, a runtime panic) is a `Fault`.
* The network is a function from the number of requests issued so far and the URL to a
  `Response`; the requests issued and the lines logged are recorded in a `World`.
-/

namespace Top250

/-- Go string: the sequence of its code points. -/
abbrev Str := List Char

/-! ## Faults -/

/-- Ways in which the process stops before `main` returns. -/
inductive Fault where
  /-- Call of `log.Fatalf`: the message is logged and the process exits with status 1. -/
  | logFatal (msg : Str)
  /-- Runtime panic of a slice index expression, `index out of range [index] with length len`. -/
  | indexOutOfRange (index len : Nat)
  /-- Runtime panic of a method call through a nil pointer. -/
  | nilDereference
  /-- Call of `os.Exit(code)` after writing `stderr` to the error stream. -/
  | osExit (code : Nat) (stderr : Str)
  deriving DecidableEq

/-- Exit status of the process for a fault (a Go runtime panic exits with status 2). -/
def Fault.status : Fault → Nat
  | .logFatal _ => 1
  | .indexOutOfRange _ _ => 2
  | .nilDereference => 2
  | .osExit code _ => code

/-! ## Package `unicode`, `strings`, `strconv`, `regexp` -/

/-- Go `unicode.IsSpace`: the code points with the Unicode White_Space property. -/
def isSpace (c : Char) : Bool :=
  [0x09, 0x0A, 0x0B, 0x0C, 0x0D, 0x20, 0x85, 0xA0, 0x1680, 0x2028, 0x2029, 0x202F, 0x205F,
    0x3000].contains c.toNat || (0x2000 ≤ c.toNat && c.toNat ≤ 0x200A)

/-- Go `strings.TrimLeftFunc`. -/
def TrimLeftFunc (s : Str) (f : Char → Bool) : Str :=
  s.dropWhile f

/-- Go `strings.TrimRightFunc`. -/
def TrimRightFunc (s : Str) (f : Char → Bool) : Str :=
  (s.reverse.dropWhile f).reverse

/-- Go `strings.TrimSpace`: leading and trailing white space removed. -/
def TrimSpace (s : Str) : Str :=
  TrimRightFunc (TrimLeftFunc s isSpace) isSpace

/-- Go `strings.TrimLeft(s, cutset)`: the leading code points contained in `cutset` removed. -/
def TrimLeft (s cutset : Str) : Str :=
  TrimLeftFunc s (fun c => cutset.contains c)

/-- Go `strings.Split(s, sep)` for a separator of one character (both call sites pass
one): the pieces of `s` between the occurrences of `sep`, so one piece more than there
are occurrences. -/
def Split (s : Str) (sep : Char) : List Str :=
  match s with
  | [] => [[]]
  | c :: rest =>
    if c = sep then [] :: Split rest sep
    else
      match Split rest sep with
      | [] => [[c]]
      | piece :: pieces => (c :: piece) :: pieces

/-- Go `strings.Join(elems, sep)`. -/
def Join (elems : List Str) (sep : Str) : Str :=
  match elems with
  | [] => []
  | [e] => e
  | e :: rest => e ++ sep ++ Join rest sep

/-- The matches of `regexp.MustCompile("[0-9]").FindAllString(s, -1)`: the successive
non-overlapping matches of the class of the ten ASCII digits, each one character long. -/
def FindAllString (s : Str) : List Str :=
  match s with
  | [] => []
  | c :: rest => if c.isDigit then [c] :: FindAllString rest else FindAllString rest

/-- Value of a string of ASCII decimal digits, continuing from `n`; `none` when some
character is not a digit. -/
def parseDigits (s : Str) (n : Nat) : Option Nat :=
  match s with
  | [] => some n
  | ch :: rest => if ch.isDigit then parseDigits rest (n * 10 + (ch.toNat - '0'.toNat)) else none

/-- Go `strconv.Atoi` for the 64-bit `int`: an optional sign followed by one or more
ASCII decimal digits, whose value lies in `[-2^63, 2^63 - 1]`; `none` stands for the
returned error (syntax or range). -/
def Atoi (s : Str) : Option Int :=
  let neg := s.head? = some '-'
  let digits := if s.head? = some '-' ∨ s.head? = some '+' then s.tail else s
  if digits.length < 1 then none
  else
    match parseDigits digits 0 with
    | none => none
    | some n =>
      if neg then (if n ≤ 2 ^ 63 then some (-(n : Int)) else none)
      else (if n < 2 ^ 63 then some (n : Int) else none)

/-- Go slice index expression `xs[i]`: a runtime panic when `i` is out of range. -/
def index {α : Type} (xs : List α) (i : Nat) : Except Fault α :=
  match xs.get? i with
  | some x => .ok x
  | none => .error (.indexOutOfRange i xs.length)

/-! ## The goquery document tree -/

/-- Markup node as goquery presents it: the text content of the node and its
descendants, the attributes in markup order, and the result of `Find` for each selector
(the matching descendants, in document order). -/
inductive Node where
  | mk (text : Str) (attr : List (Str × Str)) (find : String → List Node)

/-- A goquery selection: the matched nodes in document order. -/
abbrev Selection := List Node

/-- Text content of a single node. -/
def Node.Text : Node → Str
  | .mk text _ _ => text

/-- The goquery `Attr` of a one-node selection: the value of the first attribute with
that key, `none` when `exists` is false. -/
def Node.Attr : Node → Str → Option Str
  | .mk _ attr _, key => (attr.find? (fun a => a.1 = key)).map (fun a => a.2)

/-- The goquery `Find` of a one-node selection. -/
def Node.Find : Node → String → Selection
  | .mk _ _ find, selector => find selector

/-- The goquery `Selection.Eq(index)`: the one-node selection at `index` (counted from
the end when negative), the empty selection when out of range. -/
def Selection.Eq (s : Selection) (index : Int) : Selection :=
  let index := if index < 0 then index + s.length else index
  if index ≥ s.length ∨ index < 0 then [] else (s.drop index.toNat).take 1

/-- The goquery `Selection.Text()`: the text contents of the matched nodes, concatenated. -/
def Selection.Text (s : Selection) : Str :=
  (s.map Node.Text).flatten

/-! ## Data model of `main.go` -/

/-- Page descriptor. -/
structure PageInfo where
  Page : Int
  Url : Str
  deriving DecidableEq

/-- Extracted record of one entry. -/
structure Movie where
  Title : Str
  Subtitle : Str
  Other : Str
  Desc : Str
  Year : Str
  Area : Str
  Tag : Str
  Star : Str
  Comment : Str
  Quote : Str
  deriving DecidableEq

/-- Crawler state; the two slices behind the pointers are held by value. -/
structure MovieCrawler where
  targetUrl : Str
  pages : List PageInfo
  movies : List Movie
  deriving DecidableEq

/-- The constructor `NewMovieCrawler`. -/
def NewMovieCrawler : MovieCrawler :=
  { targetUrl := "https://movie.douban.com/top250".toList, pages := [], movies := [] }

/-- The accessor `Pages`. -/
def MovieCrawler.Pages (c : MovieCrawler) : List PageInfo :=
  c.pages

/-! ## Pagination discovery -/

/-- Selector of the paginator links on the first page. -/
def paginatorSelector : String := "#content > div > div.article > div.paginator > a"

/-- Selector of the entry nodes of a listing page. -/
def entrySelector : String := "#content > div > div.article > ol > li"

/-- The callback of `Each` in `parsePages`, run over the paginator links in document
order: `newPages` is the captured slice, and either `log.Fatalf` ends the process. -/
def parsePagesEach (links : Selection) (newPages : List PageInfo) :
    Except Fault (List PageInfo) :=
  match links with
  | [] => .ok newPages
  | s :: rest =>
    match Atoi s.Text with
    | none => .error (.logFatal "Atoi failed".toList)
    | some page =>
      match s.Attr "href".toList with
      | none => .error (.logFatal "href not exists".toList)
      | some url => parsePagesEach rest (newPages ++ [{ Page := page, Url := url }])

/-- The method `parsePages`. -/
def MovieCrawler.parsePages (c : MovieCrawler) (doc : Node) : Except Fault MovieCrawler :=
  let page : PageInfo := { Page := 1, Url := [] }
  let newPages := c.pages ++ [page]
  match parsePagesEach (doc.Find paginatorSelector) newPages with
  | .error f => .error f
  | .ok newPages => .ok { c with pages := newPages }

/-! ## Record extraction -/

/-- The cutset literal of the two `strings.TrimLeft` calls: a space, a no-break space
(U+00A0), a slash and a no-break space. -/
def headingCutset : Str := [' ', Char.ofNat 0xA0, '/', Char.ofNat 0xA0]

/-- The callback of `Each` in `parseMovies` for one entry node `s`; an index
expression out of range is a runtime panic. -/
def parseMovie (s : Node) : Except Fault Movie :=
  let title := ((s.Find ".hd a span").Eq 0).Text
  let subtitle := ((s.Find ".hd a span").Eq 1).Text
  let subtitle := TrimLeft subtitle headingCutset
  let other := ((s.Find ".hd a span").Eq 2).Text
  let other := TrimLeft other headingCutset
  let desc := TrimSpace ((s.Find ".bd p").Eq 0).Text
  let DescInfo := Split desc '\n'
  match index DescInfo 0 with
  | .error f => .error f
  | .ok desc =>
    match index DescInfo 1 with
    | .error f => .error f
    | .ok line =>
      let movieDesc := Split line '/'
      match index movieDesc 0 with
      | .error f => .error f
      | .ok year0 =>
        match index movieDesc 1 with
        | .error f => .error f
        | .ok area0 =>
          match index movieDesc 2 with
          | .error f => .error f
          | .ok tag0 =>
            let year := TrimSpace year0
            let area := TrimSpace area0
            let tag := TrimSpace tag0
            let star := (s.Find ".bd .star .rating_num").Text
            let comment := TrimSpace ((s.Find ".bd .star span").Eq 3).Text
            let comment := Join (FindAllString comment) []
            let quote := (s.Find ".quote .inq").Text
            .ok { Title := title, Subtitle := subtitle, Other := other, Desc := desc,
                  Year := year, Area := area, Tag := tag, Star := star,
                  Comment := comment, Quote := quote }

/-- The `Each` loop of `parseMovies` over the entry nodes in document order:
`moviesOfCurPage` is the captured slice. -/
def parseMoviesEach (entries : Selection) (moviesOfCurPage : List Movie) :
    Except Fault (List Movie) :=
  match entries with
  | [] => .ok moviesOfCurPage
  | s :: rest =>
    match parseMovie s with
    | .error f => .error f
    | .ok movie => parseMoviesEach rest (moviesOfCurPage ++ [movie])

/-- The method `parseMovies`. -/
def MovieCrawler.parseMovies (c : MovieCrawler) (doc : Node) : Except Fault MovieCrawler :=
  match parseMoviesEach (doc.Find entrySelector) [] with
  | .error f => .error f
  | .ok moviesOfCurPage => .ok { c with movies := c.movies ++ moviesOfCurPage }

/-! ## Fetching -/

/-- What the network does with one GET request. -/
inductive Response where
  /-- The call `http.NewRequest` returns an error (and a nil request). -/
  | badRequest (err : Str)
  /-- The call `http.DefaultClient.Do` returns an error. -/
  | transportError (err : Str)
  /-- The call `goquery.NewDocumentFromReader` returns an error. -/
  | malformed (err : Str)
  /-- The page is fetched and parsed into a document. -/
  | document (doc : Node)

/-- The network: the response to a request, given how many requests were issued before it. -/
abbrev Net := Nat → Str → Response

/-- Observable effects of the process so far: the URLs requested, in order, and the
record lines logged (rank and record). -/
structure World where
  requests : List Str
  logged : List (Nat × Movie)
  deriving DecidableEq

/-- The world at process start. -/
def World.init : World := { requests := [], logged := [] }

/-- The function `exitWithError`: it ends the process in both branches, so its value is
the fault; `none` is the nil error. -/
def exitWithError (err : Option Str) : Fault :=
  match err with
  | some e => .osExit 1 ("Error: ".toList ++ e ++ ['\n'])
  | none => .osExit 0 []

/-- The function `exitWithErrorf` with the formats used (`"...: %v"` and one error
argument): `fmt.Errorf` never returns nil. -/
def exitWithErrorf (format : Str) (a : Str) : Fault :=
  exitWithError (some (format ++ a))

/-- The function `handleRequest` for a GET without body: the result pair `(doc, err)`
is `.ok doc` or `.error err`; the header is added to the request before the error of
`http.NewRequest` is looked at. -/
def handleRequest (net : Net) (url : Str) (w : World) :
    Except Fault (Except Str Node) × World :=
  match net w.requests.length url with
  | .badRequest _ => (.error .nilDereference, w)
  | .transportError e =>
    (.error (exitWithErrorf "do http request failed: ".toList e),
      { w with requests := w.requests ++ [url] })
  | .malformed e => (.ok (.error e), { w with requests := w.requests ++ [url] })
  | .document doc => (.ok (.ok doc), { w with requests := w.requests ++ [url] })

/-- The method `fetchPages`. -/
def MovieCrawler.fetchPages (c : MovieCrawler) (net : Net) (w : World) :
    Except Fault Node × World :=
  match handleRequest net c.targetUrl w with
  | (.error f, w1) => (.error f, w1)
  | (.ok (.error err), w1) => (.error (exitWithErrorf "doc parse failed: ".toList err), w1)
  | (.ok (.ok doc), w1) => (.ok doc, w1)

/-- The method `fetchMovies`. -/
def MovieCrawler.fetchMovies (c : MovieCrawler) (net : Net) (page : PageInfo) (w : World) :
    Except Fault Node × World :=
  let url := Join [c.targetUrl, page.Url] []
  match handleRequest net url w with
  | (.error f, w1) => (.error f, w1)
  | (.ok (.error err), w1) => (.error (exitWithErrorf "doc parse failed: ".toList err), w1)
  | (.ok (.ok doc), w1) => (.ok doc, w1)

/-! ## Crawl orchestration -/

/-- The `for ... range *c.Pages()` loop of `printTop250Movies` over the remaining pages. -/
def crawlPages (net : Net) (pages : List PageInfo) (c : MovieCrawler) (w : World) :
    Except Fault MovieCrawler × World :=
  match pages with
  | [] => (.ok c, w)
  | page :: rest =>
    match c.fetchMovies net page w with
    | (.error f, w1) => (.error f, w1)
    | (.ok mDoc, w1) =>
      match c.parseMovies mDoc with
      | .error f => (.error f, w1)
      | .ok c1 => crawlPages net rest c1 w1

/-- The lines of the final loop of `printTop250Movies`: rank `i+1` and record. -/
def report (movies : List Movie) : List (Nat × Movie) :=
  movies.enumFrom 1

/-- The method `printTop250Movies`. -/
def MovieCrawler.printTop250Movies (c : MovieCrawler) (net : Net) (w : World) :
    Except Fault MovieCrawler × World :=
  let collected : Except Fault MovieCrawler × World :=
    if c.movies.length = 0 then
      match c.fetchPages net w with
      | (.error f, w1) => (.error f, w1)
      | (.ok pDoc, w1) =>
        match c.parsePages pDoc with
        | .error f => (.error f, w1)
        | .ok c1 => crawlPages net c1.Pages c1 w1
    else (.ok c, w)
  match collected with
  | (.error f, w2) => (.error f, w2)
  | (.ok c2, w2) => (.ok c2, { w2 with logged := w2.logged ++ report c2.movies })

/-- The function `main`. -/
def main (net : Net) : Except Fault MovieCrawler × World :=
  NewMovieCrawler.printTop250Movies net World.init

/-! ## Relations and example documents used in the statements -/

/-- The key of the link target attribute. -/
def hrefKey : Str := "href".toList

/-- A paginator link `l` and the descriptor `p` that `parsePages` makes from it. -/
def LinkPage (l : Node) (p : PageInfo) : Prop :=
  Atoi l.Text = some p.Page ∧ l.Attr hrefKey = some p.Url

/-- A node without descendants: text and attributes only. -/
def leaf (text : String) (attr : List (String × String)) : Node :=
  .mk text.toList (attr.map (fun a => (a.1.toList, a.2.toList))) (fun _ => [])

/-- A first page whose paginator holds the given links (text and href) and which has
no entries. -/
def firstPage (links : List (String × String)) : Node :=
  .mk [] [] (fun selector =>
    if selector = paginatorSelector then links.map (fun l => leaf l.1 [("href", l.2)]) else [])

/-- The record literal that ends the callback of `parseMovies`, for the entry node `s`
and the pieces `desc`, `year0`, `area0`, `tag0` taken out of the split body text. -/
def movieOfParts (s : Node) (desc year0 area0 tag0 : Str) : Movie :=
  { Title := ((s.Find ".hd a span").Eq 0).Text,
    Subtitle := TrimLeft ((s.Find ".hd a span").Eq 1).Text headingCutset,
    Other := TrimLeft ((s.Find ".hd a span").Eq 2).Text headingCutset,
    Desc := desc,
    Year := TrimSpace year0,
    Area := TrimSpace area0,
    Tag := TrimSpace tag0,
    Star := (s.Find ".bd .star .rating_num").Text,
    Comment := Join (FindAllString (TrimSpace ((s.Find ".bd .star span").Eq 3).Text)) [],
    Quote := (s.Find ".quote .inq").Text }

/-- Body text of the documented shape: trimmed of surrounding white space it is a first
line `d`, a newline, and a second line `y/r/g` with exactly two slashes and no further
newline. -/
def BodyShape (body d y r g : Str) : Prop :=
  TrimSpace body = d ++ '\n' :: (y ++ '/' :: (r ++ '/' :: g)) ∧
    '\n' ∉ d ∧ ('/' ∉ y ∧ '\n' ∉ y) ∧ ('/' ∉ r ∧ '\n' ∉ r) ∧ ('/' ∉ g ∧ '\n' ∉ g)

/-- An entry node with the given texts for the heading spans (`.hd a span`), the body
paragraphs (`.bd p`), the rating number nodes (`.bd .star .rating_num`), the rating
spans (`.bd .star span`) and the quote nodes (`.quote .inq`). -/
def entry (spans body ratingNum starSpans quote : List String) : Node :=
  .mk [] [] (fun selector =>
    if selector = ".hd a span" then spans.map (fun t => leaf t [])
    else if selector = ".bd p" then body.map (fun t => leaf t [])
    else if selector = ".bd .star .rating_num" then ratingNum.map (fun t => leaf t [])
    else if selector = ".bd .star span" then starSpans.map (fun t => leaf t [])
    else if selector = ".quote .inq" then quote.map (fun t => leaf t [])
    else [])

/-- The entries of the page `doc` are extracted, in document order, to the records `ms`. -/
def PageMovies (doc : Node) (ms : List Movie) : Prop :=
  List.Forall₂ (fun s m => parseMovie s = .ok m) (doc.Find entrySelector) ms

/-- Every page of `pages` is fetched in turn, as request number `n`, `n + 1`, ..., the
network answers with a document, and the entries of the `i`-th document are extracted to
the `i`-th list of `mss`. -/
inductive PagesCrawled (net : Net) (targetUrl : Str) :
    Nat → List PageInfo → List (List Movie) → Prop where
  | nil (n : Nat) : PagesCrawled net targetUrl n [] []
  | cons {n : Nat} {page : PageInfo} {pages : List PageInfo} {doc : Node}
      {ms : List Movie} {mss : List (List Movie)}
      (hfetch : net n (targetUrl ++ page.Url) = .document doc)
      (hparse : PageMovies doc ms)
      (hrest : PagesCrawled net targetUrl (n + 1) pages mss) :
      PagesCrawled net targetUrl n (page :: pages) (ms :: mss)

/-- Specification of leading-run stripping: `out` is `t` without its longest leading
run of characters satisfying `sep`, the rest of `t` unchanged. -/
def StripsLeadingRun (sep : Char → Bool) (t out : Str) : Prop :=
  ∃ run, t = run ++ out ∧ (∀ c ∈ run, sep c = true) ∧ ∀ c, out.head? = some c → sep c = false

/-- The separator set in the wording "space and `/` characters": U+0020 and the slash. -/
def isSpaceOrSlash (c : Char) : Bool :=
  c == ' ' || c == '/'

/-- The separator set for the reading "any white space and `/`". -/
def isWhiteOrSlash (c : Char) : Bool :=
  isSpace c || c == '/'

/-- The separator set that the cutset literal denotes: U+0020, U+00A0 and the slash. -/
def isHeadingSeparator (c : Char) : Bool :=
  c == ' ' || c == Char.ofNat 0xA0 || c == '/'

/-- An entry as the source site renders it: the second heading span starts with a
no-break space, a slash and a no-break space; the third starts with a tab. -/
def nbspEntry : Node :=
  entry ["The Shawshank Redemption", "\u00a0/\u00a0Xiao Shen Ke", "\t/ Stimulus 1995"]
    ["Drama.\n1994 / USA / Crime Drama"] ["9.7"] ["", "9.7", "", "1,234人评价"] ["Hope."]

/-- A listing page with the given paginator links (text and href) and entry nodes. -/
def listingPage (links : List (String × String)) (entries : List Node) : Node :=
  .mk [] [] (fun selector =>
    if selector = paginatorSelector then links.map (fun l => leaf l.1 [("href", l.2)])
    else if selector = entrySelector then entries
    else [])

/-- A site of two listing pages: the first holds a link to the second and two entries,
the second holds one entry; any other URL cannot be reached. -/
def twoPageSite : Net := fun _ url =>
  if url = "https://movie.douban.com/top250".toList then
    .document (listingPage [("2", "?start=25&filter=")]
      [entry ["A"] ["Drama.\n1994 / USA / Crime"] ["9.7"] ["", "9.7", "", "3人评价"] ["Hope."],
       entry ["B"] ["Drama.\n1993 / China / Drama"] ["9.6"] ["", "9.6", "", "2人评价"] []])
  else if url = "https://movie.douban.com/top250?start=25&filter=".toList then
    .document (listingPage []
      [entry ["C"] ["Drama.\n1997 / Italy / War"] ["9.5"] ["", "9.5", "", "1人评价"] []])
  else .transportError "no such host".toList

/-- A site that answers every request with a page without paginator links and without
entries. -/
def emptySite : Net := fun _ _ => .document (listingPage [] [])

/-- The part of `s` before its first occurrence of `sep`; all of `s` when there is none. -/
def pieceBefore (sep : Char) (s : Str) : Str :=
  s.takeWhile (fun c => c != sep)

/-- The part of `s` after its first occurrence of `sep`; empty when there is none. -/
def pieceAfter (sep : Char) (s : Str) : Str :=
  (s.dropWhile (fun c => c != sep)).drop 1

/-- The piece number `i` (from 0) of `s` between the occurrences of `sep`. -/
def nthPiece (sep : Char) (i : Nat) (s : Str) : Str :=
  match i with
  | 0 => pieceBefore sep s
  | j + 1 => nthPiece sep j (pieceAfter sep s)

/-- The trimmed text of the first body paragraph of the entry node `s`. -/
def bodyText (s : Node) : Str :=
  TrimSpace ((s.Find ".bd p").Eq 0).Text

/-- The second line of a text: what stands between its first and its second newline. -/
def secondLine (t : Str) : Str :=
  nthPiece '\n' 1 t

/-- The response is a failed fetch: anything but a document. -/
def Response.failed (r : Response) : Bool :=
  match r with
  | .document _ => false
  | _ => true

/-- In the run of `printTop250Movies` from crawler `c` and world `w` some page fetch
fails: the crawler holds no movie, so the run fetches, and either the fetch of the first
page fails, or the first page is fetched, discovery succeeds, the discovered pages `pre`
are fetched and extracted, and the fetch of the next discovered page fails. -/
inductive FetchFails (net : Net) (c : MovieCrawler) (w : World) : Prop where
  | first (hempty : c.movies = [])
      (hfail : (net w.requests.length c.targetUrl).failed = true) : FetchFails net c w
  | later (hempty : c.movies = []) (pDoc : Node) (c1 : MovieCrawler)
      (pre : List PageInfo) (page : PageInfo) (post : List PageInfo)
      (mss : List (List Movie))
      (hfirst : net w.requests.length c.targetUrl = .document pDoc)
      (hdisc : c.parsePages pDoc = .ok c1)
      (hpages : c1.pages = pre ++ page :: post)
      (hpre : PagesCrawled net c.targetUrl (w.requests.length + 1) pre mss)
      (hfail : (net (w.requests.length + 1 + pre.length) (c.targetUrl ++ page.Url)).failed
        = true) : FetchFails net c w

/-- A site whose first page holds one entry and a link to a second page that cannot be
reached. -/
def brokenSite : Net := fun _ url =>
  if url = "https://movie.douban.com/top250".toList then
    .document (listingPage [("2", "?start=25&filter=")]
      [entry ["A"] ["Drama.\n1994 / USA / Crime"] ["9.7"] ["", "9.7", "", "3人评价"] ["Hope."]])
  else .transportError "connection refused".toList

/-- The page-1 seed descriptor that `parsePages` appends first. -/
def seedPage : PageInfo := { Page := 1, Url := [] }

/-- The crawler after `k` successive calls of `parsePages` on the same document `doc`. -/
def parsePagesTimes (doc : Node) (k : Nat) (c : MovieCrawler) : Except Fault MovieCrawler :=
  match k with
  | 0 => .ok c
  | j + 1 =>
    match c.parsePages doc with
    | .error f => .error f
    | .ok c1 => parsePagesTimes doc j c1

/-! ## Lemmas on the string functions -/

theorem Split_ne_nil (s : Str) (sep : Char) : Split s sep ≠ [] := by
  induction s with
  | nil => simp [Split]
  | cons c rest ih =>
    unfold Split
    split
    · simp
    · split <;> simp

theorem Split_of_not_mem (s : Str) (sep : Char) (h : sep ∉ s) : Split s sep = [s] := by
  induction s with
  | nil => simp [Split]
  | cons c rest ih =>
    have hc : c ≠ sep := fun e => h (by simp [e])
    have hr : sep ∉ rest := fun e => h (by simp [e])
    rw [Split, if_neg hc, ih hr]

theorem Split_append_sep (a b : Str) (sep : Char) (h : sep ∉ a) :
    Split (a ++ sep :: b) sep = a :: Split b sep := by
  induction a with
  | nil => simp [Split]
  | cons c rest ih =>
    have hc : c ≠ sep := fun e => h (by simp [e])
    have hr : sep ∉ rest := fun e => h (by simp [e])
    rw [List.cons_append, Split, if_neg hc, ih hr]

theorem Join_cons_nil (e : Str) (rest : List Str) : Join (e :: rest) [] = e ++ Join rest [] := by
  cases rest <;> simp [Join]

theorem Join_FindAllString (s : Str) : Join (FindAllString s) [] = s.filter Char.isDigit := by
  induction s with
  | nil => simp [FindAllString, Join]
  | cons c rest ih =>
    unfold FindAllString
    by_cases hc : c.isDigit = true
    · simp [hc, Join_cons_nil, ih]
    · simp [hc, ih]

theorem isDigit_iff (c : Char) : c.isDigit = true ↔ 48 ≤ c.toNat ∧ c.toNat ≤ 57 := by
  simp only [Char.isDigit, Char.toNat, ge_iff_le, Bool.and_eq_true, decide_eq_true_eq,
    UInt32.le_def, BitVec.le_def]
  exact Iff.rfl

theorem isDigit_false_of_isSpace (c : Char) (h : isSpace c = true) : c.isDigit = false := by
  have hiff := isDigit_iff c
  cases hd : c.isDigit
  · rfl
  · rw [hd] at hiff
    have h2 := hiff.mp rfl
    simp [isSpace] at h
    omega

theorem filter_dropWhile_of_disjoint (p q : Char → Bool) (h : ∀ c, q c = true → p c = false)
    (s : Str) : (s.dropWhile q).filter p = s.filter p := by
  induction s with
  | nil => simp
  | cons c rest ih =>
    by_cases hq : q c = true
    · simp [List.dropWhile_cons, hq, ih, h c hq]
    · simp [List.dropWhile_cons, hq]

theorem filter_isDigit_TrimSpace (s : Str) :
    (TrimSpace s).filter Char.isDigit = s.filter Char.isDigit := by
  unfold TrimSpace TrimRightFunc TrimLeftFunc
  rw [List.filter_reverse, filter_dropWhile_of_disjoint _ _ isDigit_false_of_isSpace,
    ← List.filter_reverse, List.reverse_reverse,
    filter_dropWhile_of_disjoint _ _ isDigit_false_of_isSpace]

/-! ## Lemmas on selections -/

theorem Selection.Eq_natCast (s : Selection) (n : Nat) :
    Selection.Eq s (n : Int) = (s.get? n).toList := by
  unfold Selection.Eq
  have h0 : ¬ ((n : Int) < 0) := by omega
  simp only [h0, if_false, Int.toNat_ofNat]
  by_cases hn : n < s.length
  · have h1 : ¬ ((n : Int) ≥ (s.length : Int) ∨ False) := by simp; omega
    rw [if_neg h1, List.get?_eq_get hn]
    rw [List.drop_eq_getElem_cons hn]
    rfl
  · have h1 : ((n : Int) ≥ (s.length : Int) ∨ False) := by left; omega
    rw [if_pos h1, List.get?_eq_none.mpr (by omega)]
    rfl

theorem Selection.Text_Eq_natCast (s : Selection) (n : Nat) :
    (Selection.Eq s (n : Int)).Text = ((s.get? n).map Node.Text).getD [] := by
  rw [Selection.Eq_natCast]
  cases s.get? n <;> simp [Selection.Text]

theorem Selection.Text_Eq_of_none (s : Selection) (n : Nat) (i : Int) (hi : i = (n : Int))
    (h : s[n]? = none) : (Selection.Eq s i).Text = [] := by
  subst hi
  rw [Selection.Text_Eq_natCast, List.get?_eq_getElem?, h]
  rfl

theorem Selection.Text_Eq_of_some (s : Selection) (n : Nat) (i : Int) (hi : i = (n : Int))
    (x : Node) (h : s[n]? = some x) : (Selection.Eq s i).Text = x.Text := by
  subst hi
  rw [Selection.Text_Eq_natCast, List.get?_eq_getElem?, h]
  rfl

theorem TrimLeft_nil (cutset : Str) : TrimLeft [] cutset = [] := rfl

theorem Join_FindAllString_TrimSpace_nil : Join (FindAllString (TrimSpace [])) [] = [] := rfl

/-! ## Lemmas on pagination discovery -/

theorem parsePagesEach_ok_iff (links : Selection) (acc out : List PageInfo) :
    parsePagesEach links acc = .ok out ↔
      ∃ ps, out = acc ++ ps ∧ List.Forall₂ LinkPage links ps := by
  induction links generalizing acc with
  | nil =>
    simp only [parsePagesEach, Except.ok.injEq, List.forall₂_nil_left_iff]
    constructor
    · intro h; exact ⟨[], by simp [h], rfl⟩
    · rintro ⟨ps, h, rfl⟩; simp [h]
  | cons l rest ih =>
    unfold parsePagesEach
    cases hA : Atoi l.Text with
    | none =>
      constructor
      · intro h; cases h
      · rintro ⟨ps, _, hF⟩
        cases hF with
        | cons h _ => rw [h.1] at hA; cases hA
    | some page =>
      cases hH : l.Attr "href".toList with
      | none =>
        constructor
        · intro h; cases h
        · rintro ⟨ps, _, hF⟩
          cases hF with
          | cons h _ =>
            rw [show l.Attr "href".toList = l.Attr hrefKey from rfl, h.2] at hH; cases hH
      | some url =>
        simp only [ih]
        constructor
        · rintro ⟨ps, h, hF⟩
          exact ⟨{ Page := page, Url := url } :: ps, by simp [h], List.Forall₂.cons ⟨hA, hH⟩ hF⟩
        · rintro ⟨ps, h, hF⟩
          cases hF with
          | cons hl hF =>
            rename_i p ps
            have h1 : page = p.Page := by
              have := hl.1; rw [hA] at this; exact Option.some.inj this
            have h2 : url = p.Url := by
              have := hl.2; rw [show l.Attr hrefKey = l.Attr "href".toList from rfl, hH] at this
              exact Option.some.inj this
            refine ⟨ps, ?_, hF⟩
            subst h1 h2
            simp [h]

theorem parsePagesEach_error_iff (links : Selection) (acc : List PageInfo) :
    (∃ f, parsePagesEach links acc = .error f) ↔
      ∃ l ∈ links, Atoi l.Text = none ∨ l.Attr hrefKey = none := by
  induction links generalizing acc with
  | nil => simp [parsePagesEach]
  | cons l rest ih =>
    unfold parsePagesEach
    cases hA : Atoi l.Text with
    | none => simp [hA]
    | some page =>
      cases hH : l.Attr "href".toList with
      | none =>
        have hH2 : l.Attr hrefKey = none := hH
        simp [hH2]
      | some url =>
        have hH2 : l.Attr hrefKey = some url := hH
        simp [ih, hA, hH2]

theorem parsePagesEach_error_status (links : Selection) (acc : List PageInfo) (f : Fault)
    (h : parsePagesEach links acc = .error f) : f.status = 1 := by
  induction links generalizing acc with
  | nil => simp [parsePagesEach] at h
  | cons l rest ih =>
    unfold parsePagesEach at h
    cases hA : Atoi l.Text with
    | none =>
      simp only [hA] at h
      cases h
      rfl
    | some page =>
      cases hH : l.Attr "href".toList with
      | none =>
        simp only [hA, hH] at h
        cases h
        rfl
      | some url =>
        simp only [hA, hH] at h
        exact ih _ h

theorem parsePages_ok_iff (c c1 : MovieCrawler) (doc : Node) :
    c.parsePages doc = .ok c1 ↔
      ∃ ps, List.Forall₂ LinkPage (doc.Find paginatorSelector) ps ∧
        c1 = { c with pages := c.pages ++ { Page := 1, Url := [] } :: ps } := by
  simp only [MovieCrawler.parsePages]
  cases h : parsePagesEach (doc.Find paginatorSelector) (c.pages ++ [{ Page := 1, Url := [] }]) with
  | error f =>
    constructor
    · intro e; cases e
    · rintro ⟨ps, hF, _⟩
      have := (parsePagesEach_ok_iff _ (c.pages ++ [{ Page := 1, Url := [] }]) _).mpr ⟨ps, rfl, hF⟩
      rw [h] at this; cases this
  | ok out =>
    obtain ⟨ps, hout, hF⟩ := (parsePagesEach_ok_iff _ _ _).mp h
    simp only [Except.ok.injEq]
    constructor
    · intro e
      exact ⟨ps, hF, by rw [← e, hout]; simp⟩
    · rintro ⟨ps2, hF2, e⟩
      have := (parsePagesEach_ok_iff _ (c.pages ++ [{ Page := 1, Url := [] }]) _).mpr ⟨ps2, rfl, hF2⟩
      rw [h] at this
      rw [e, Except.ok.inj this]; simp

theorem Forall₂_LinkPage_numbers (links : Selection) (ps : List PageInfo)
    (h : List.Forall₂ LinkPage links ps) :
    links.filterMap (fun l => Atoi l.Text) = ps.map PageInfo.Page := by
  induction h with
  | nil => rfl
  | cons hl _ ih => simp [List.filterMap_cons, hl.1, ih]

theorem exists_Forall₂_LinkPage (links : Selection)
    (h : ∀ l ∈ links, (Atoi l.Text).isSome = true ∧ (l.Attr hrefKey).isSome = true) :
    ∃ ps, List.Forall₂ LinkPage links ps := by
  induction links with
  | nil => exact ⟨[], List.Forall₂.nil⟩
  | cons l rest ih =>
    obtain ⟨ps, hps⟩ := ih (fun x hx => h x (List.mem_cons_of_mem _ hx))
    obtain ⟨h1, h2⟩ := h l (List.mem_cons_self _ _)
    obtain ⟨n, hn⟩ := Option.isSome_iff_exists.mp h1
    obtain ⟨u, hu⟩ := Option.isSome_iff_exists.mp h2
    exact ⟨{ Page := n, Url := u } :: ps, List.Forall₂.cons ⟨hn, hu⟩ hps⟩

theorem Forall₂_getElem? {α β : Type} {R : α → β → Prop} {xs : List α} {ys : List β}
    (h : List.Forall₂ R xs ys) (i : Nat) (x : α) (hx : xs[i]? = some x) :
    ∃ y, ys[i]? = some y ∧ R x y := by
  induction h generalizing i with
  | nil => simp at hx
  | cons hr _ ih =>
    cases i with
    | zero =>
      simp only [List.getElem?_cons_zero, Option.some.injEq] at hx
      subst hx
      exact ⟨_, by simp, hr⟩
    | succ j =>
      simp only [List.getElem?_cons_succ] at hx
      simpa using ih j hx

theorem Forall₂_LinkPage_mem (links : Selection) (ps : List PageInfo)
    (h : List.Forall₂ LinkPage links ps) (p : PageInfo) (hp : p ∈ ps) :
    ∃ l ∈ links, LinkPage l p := by
  induction h with
  | nil => simp at hp
  | cons hr _ ih =>
    rcases List.mem_cons.mp hp with e | hp2
    · subst e; exact ⟨_, List.mem_cons_self _ _, hr⟩
    · obtain ⟨l, hl, hlp⟩ := ih hp2
      exact ⟨l, List.mem_cons_of_mem _ hl, hlp⟩

theorem Atoi_range (s : Str) (n : Int) (h : Atoi s = some n) :
    -(2 ^ 63 : Int) ≤ n ∧ n < (2 ^ 63 : Int) := by
  unfold Atoi at h
  simp only at h
  repeat' split at h
  all_goals first
    | (cases h; done)
    | (have e := Option.some.inj h
       subst e
       omega)

/-! ## Lemmas on record extraction -/

theorem parseMovie_of_Split (s : Node) (d line y r g : Str) (restL restP : List Str)
    (h1 : Split (TrimSpace ((s.Find ".bd p").Eq 0).Text) '\n' = d :: line :: restL)
    (h2 : Split line '/' = y :: r :: g :: restP) :
    parseMovie s = .ok (movieOfParts s d y r g) := by
  simp only [parseMovie, h1, index, List.get?, h2, movieOfParts]

theorem parseMovie_ok_inv (s : Node) (m : Movie) (h : parseMovie s = .ok m) :
    ∃ d line y r g restL restP,
      Split (TrimSpace ((s.Find ".bd p").Eq 0).Text) '\n' = d :: line :: restL ∧
      Split line '/' = y :: r :: g :: restP ∧ m = movieOfParts s d y r g := by
  rcases h1 : Split (TrimSpace ((s.Find ".bd p").Eq 0).Text) '\n' with _ | ⟨d, _ | ⟨line, restL⟩⟩
  · simp [parseMovie, h1, index] at h
  · simp [parseMovie, h1, index] at h
  · rcases h2 : Split line '/' with _ | ⟨y, _ | ⟨r, _ | ⟨g, restP⟩⟩⟩
    · simp [parseMovie, h1, h2, index] at h
    · simp [parseMovie, h1, h2, index] at h
    · simp [parseMovie, h1, h2, index] at h
    · refine ⟨d, line, y, r, g, restL, restP, rfl, h2, ?_⟩
      rw [parseMovie_of_Split s d line y r g restL restP h1 h2] at h
      exact (Except.ok.inj h).symm

theorem Split_body (d y r g : Str) (hd : '\n' ∉ d) (hy : '\n' ∉ y) (hr : '\n' ∉ r)
    (hg : '\n' ∉ g) :
    Split (d ++ '\n' :: (y ++ '/' :: (r ++ '/' :: g))) '\n' = [d, y ++ '/' :: (r ++ '/' :: g)] := by
  rw [Split_append_sep _ _ _ hd, Split_of_not_mem]
  simp only [List.mem_append, List.mem_cons, not_or]
  exact ⟨hy, by decide, hr, by decide, hg⟩

theorem Split_line (y r g : Str) (hy : '/' ∉ y) (hr : '/' ∉ r) (hg : '/' ∉ g) :
    Split (y ++ '/' :: (r ++ '/' :: g)) '/' = [y, r, g] := by
  rw [Split_append_sep _ _ _ hy, Split_append_sep _ _ _ hr, Split_of_not_mem _ _ hg]

theorem parseMovie_of_BodyShape (s : Node) (d y r g : Str)
    (h : BodyShape ((s.Find ".bd p").Eq 0).Text d y r g) :
    parseMovie s = .ok (movieOfParts s d y r g) := by
  obtain ⟨hb, hd, ⟨hy1, hy2⟩, ⟨hr1, hr2⟩, hg1, hg2⟩ := h
  apply parseMovie_of_Split s d (y ++ '/' :: (r ++ '/' :: g)) y r g [] []
  · rw [hb, Split_body d y r g hd hy2 hr2 hg2]
  · exact Split_line y r g hy1 hr1 hg1

/-! ## Lemmas on the crawl -/

theorem parseMoviesEach_of_Forall₂ (entries : Selection) (acc ms : List Movie)
    (h : List.Forall₂ (fun s m => parseMovie s = .ok m) entries ms) :
    parseMoviesEach entries acc = .ok (acc ++ ms) := by
  induction h generalizing acc with
  | nil => simp [parseMoviesEach]
  | cons hr _ ih =>
    unfold parseMoviesEach
    simp only [hr, ih, List.append_assoc, List.singleton_append]

theorem parseMovies_of_PageMovies (c : MovieCrawler) (doc : Node) (ms : List Movie)
    (h : PageMovies doc ms) :
    c.parseMovies doc = .ok { c with movies := c.movies ++ ms } := by
  unfold MovieCrawler.parseMovies
  rw [parseMoviesEach_of_Forall₂ _ [] ms h]
  simp

theorem fetchMovies_document (c : MovieCrawler) (net : Net) (page : PageInfo) (w : World)
    (doc : Node) (h : net w.requests.length (c.targetUrl ++ page.Url) = .document doc) :
    c.fetchMovies net page w =
      (.ok doc, { w with requests := w.requests ++ [c.targetUrl ++ page.Url] }) := by
  have hj : Join [c.targetUrl, page.Url] [] = c.targetUrl ++ page.Url := by simp [Join]
  simp only [MovieCrawler.fetchMovies, hj, handleRequest, h]

theorem fetchPages_document (c : MovieCrawler) (net : Net) (w : World) (doc : Node)
    (h : net w.requests.length c.targetUrl = .document doc) :
    c.fetchPages net w = (.ok doc, { w with requests := w.requests ++ [c.targetUrl] }) := by
  simp only [MovieCrawler.fetchPages, handleRequest, h]

theorem crawlPages_of_PagesCrawled (net : Net) (t : Str) (n : Nat) (pages : List PageInfo)
    (mss : List (List Movie)) (h : PagesCrawled net t n pages mss) (c : MovieCrawler)
    (w : World) (ht : c.targetUrl = t) (hn : w.requests.length = n) :
    crawlPages net pages c w =
      (.ok { c with movies := c.movies ++ mss.flatten },
        { w with requests := w.requests ++ pages.map (fun p => t ++ p.Url) }) := by
  induction h generalizing c w with
  | nil n => simp [crawlPages]
  | @cons k page pages doc ms mss hfetch hparse _ ih =>
    subst ht
    unfold crawlPages
    rw [fetchMovies_document c net page w doc (by rw [hn]; exact hfetch)]
    simp only [parseMovies_of_PageMovies c doc ms hparse]
    rw [ih { c with movies := c.movies ++ ms }
      { w with requests := w.requests ++ [c.targetUrl ++ page.Url] } rfl (by simp [hn])]
    simp

theorem PagesCrawled_length (net : Net) (t : Str) (n : Nat) (pages : List PageInfo)
    (mss : List (List Movie)) (h : PagesCrawled net t n pages mss) :
    mss.length = pages.length := by
  induction h with
  | nil n => rfl
  | cons _ _ _ ih => simp [ih]

theorem length_flatten_of_forall_length (mss : List (List Movie)) (k : Nat)
    (h : ∀ ms ∈ mss, ms.length = k) : mss.flatten.length = k * mss.length := by
  induction mss with
  | nil => simp
  | cons ms rest ih =>
    rw [List.flatten_cons, List.length_append, h ms (List.mem_cons_self _ _),
      ih (fun x hx => h x (List.mem_cons_of_mem _ hx)), List.length_cons]
    ring

/-! ## Claims on pagination discovery and on the field rules -/

/-- C1: on a crawler without pages, for every first page whose paginator links all have
a text that `Atoi` accepts and an `href` attribute, `parsePages` succeeds; with `N`
links the page list has `N + 1` descriptors, the first is `Page 1` with the empty `Url`,
and the descriptor at position `i + 1` has the parsed text and the `href` of the link at
position `i` of the document order. -/
theorem parsePages_fresh_descriptors (c : MovieCrawler) (doc : Node) (hfresh : c.pages = [])
    (hlinks : ∀ l ∈ doc.Find paginatorSelector,
      (Atoi l.Text).isSome = true ∧ (l.Attr hrefKey).isSome = true) :
    ∃ c1, c.parsePages doc = .ok c1 ∧
      c1.pages.length = (doc.Find paginatorSelector).length + 1 ∧
      c1.pages[0]? = some { Page := 1, Url := [] } ∧
      ∀ i l, (doc.Find paginatorSelector)[i]? = some l →
        ∃ p, c1.pages[i + 1]? = some p ∧ Atoi l.Text = some p.Page ∧
          l.Attr hrefKey = some p.Url := by
  obtain ⟨ps, hps⟩ := exists_Forall₂_LinkPage _ hlinks
  refine ⟨{ c with pages := c.pages ++ { Page := 1, Url := [] } :: ps },
    (parsePages_ok_iff c _ doc).mpr ⟨ps, hps, rfl⟩, ?_, ?_, ?_⟩
  · simp [hfresh, hps.length_eq]
  · simp [hfresh]
  · intro i l hl
    obtain ⟨p, hp, hlp⟩ := Forall₂_getElem? hps i l hl
    exact ⟨p, by simp [hfresh, hp], hlp.1, hlp.2⟩

/-- Witness of C1: a first page with the two links `2` and `3`. -/
theorem parsePages_fresh_descriptors_witness :
    ∃ c1, NewMovieCrawler.parsePages
        (firstPage [("2", "?start=25&filter="), ("3", "?start=50&filter=")]) = .ok c1 ∧
      c1.pages.length = 2 + 1 ∧
      c1.pages[0]? = some { Page := 1, Url := [] } ∧
      c1.pages[1]? = some { Page := 2, Url := "?start=25&filter=".toList } ∧
      c1.pages[2]? = some { Page := 3, Url := "?start=50&filter=".toList } := by
  obtain ⟨c1, h, hlen, h0, hi⟩ := parsePages_fresh_descriptors NewMovieCrawler
    (firstPage [("2", "?start=25&filter="), ("3", "?start=50&filter=")]) rfl (by decide)
  obtain ⟨p1, hp1, ha1, hu1⟩ := hi 0 (leaf "2" [("href", "?start=25&filter=")]) rfl
  obtain ⟨p2, hp2, ha2, hu2⟩ := hi 1 (leaf "3" [("href", "?start=50&filter=")]) rfl
  refine ⟨c1, h, hlen, h0, ?_, ?_⟩
  · rw [hp1]
    have e1 : p1.Page = 2 := (Option.some.inj ha1).symm
    have e2 : p1.Url = "?start=25&filter=".toList := (Option.some.inj hu1).symm
    cases p1; simp_all
  · rw [hp2]
    have e1 : p2.Page = 3 := (Option.some.inj ha2).symm
    have e2 : p2.Url = "?start=50&filter=".toList := (Option.some.inj hu2).symm
    cases p2; simp_all

theorem StripsLeadingRun_iff (sep : Char → Bool) (t out : Str) :
    StripsLeadingRun sep t out ↔ out = t.dropWhile sep := by
  constructor
  · rintro ⟨run, rfl, hrun, hout⟩
    induction run with
    | nil =>
      cases out with
      | nil => rfl
      | cons c rest => simp [List.dropWhile_cons, hout c rfl]
    | cons c rest ih =>
      have hc : sep c = true := hrun c (List.mem_cons_self _ _)
      simp only [List.cons_append, List.dropWhile_cons, hc, if_true]
      exact ih (fun x hx => hrun x (List.mem_cons_of_mem _ hx))
  · rintro rfl
    refine ⟨t.takeWhile sep, (List.takeWhile_append_dropWhile sep t).symm, ?_, ?_⟩
    · intro c hc
      exact List.mem_takeWhile_imp hc
    · intro c hc
      induction t with
      | nil => simp at hc
      | cons a rest ih =>
        by_cases ha : sep a = true
        · simp only [List.dropWhile_cons, ha, if_true] at hc
          exact ih hc
        · simp only [List.dropWhile_cons, ha] at hc
          simp only [Bool.false_eq_true, if_false, List.head?_cons, Option.some.injEq] at hc
          subst hc
          simpa using ha

theorem TrimLeft_headingCutset (t : Str) :
    TrimLeft t headingCutset = t.dropWhile isHeadingSeparator := by
  unfold TrimLeft TrimLeftFunc
  congr 1
  funext c
  simp only [headingCutset, isHeadingSeparator, List.contains_cons, List.contains_nil,
    Bool.or_false]
  cases h1 : (c == ' ') <;> cases h2 : (c == Char.ofNat 0xA0) <;> cases h3 : (c == '/') <;> rfl

/-- C2: when the trimmed body text is `d`, a newline, `y`, a slash, `r`, a slash and `g`,
with no newline in `d` and neither slash nor newline in `y`, `r`, `g`, the record has
`Desc = d`, `Year = trim y`, `Area = trim r` and `Tag = trim g`. -/
theorem parseMovie_body_split (s : Node) (d y r g : Str)
    (hbody : TrimSpace ((s.Find ".bd p").Eq 0).Text
      = d ++ "\n".toList ++ y ++ "/".toList ++ r ++ "/".toList ++ g)
    (hd : '\n' ∉ d) (hy : '/' ∉ y ∧ '\n' ∉ y) (hr : '/' ∉ r ∧ '\n' ∉ r)
    (hg : '/' ∉ g ∧ '\n' ∉ g) :
    ∃ m, parseMovie s = .ok m ∧ m.Desc = d ∧ m.Year = TrimSpace y ∧
      m.Area = TrimSpace r ∧ m.Tag = TrimSpace g := by
  have hshape : BodyShape ((s.Find ".bd p").Eq 0).Text d y r g := by
    refine ⟨?_, hd, hy, hr, hg⟩
    rw [hbody]
    simp [List.append_assoc]
  exact ⟨_, parseMovie_of_BodyShape s d y r g hshape, rfl, rfl, rfl, rfl⟩

/-- Witness of C2: the body text `Drama.`, newline, `1994 / USA / Crime Drama`. -/
theorem parseMovie_body_split_witness :
    ∃ m, parseMovie (entry ["T"] ["Drama.\n1994 / USA / Crime Drama"] [] [] []) = .ok m ∧
      m.Desc = "Drama.".toList ∧ m.Year = "1994".toList ∧ m.Area = "USA".toList ∧
      m.Tag = "Crime Drama".toList := by
  obtain ⟨m, h, h1, h2, h3, h4⟩ := parseMovie_body_split
    (entry ["T"] ["Drama.\n1994 / USA / Crime Drama"] [] [] [])
    "Drama.".toList "1994 ".toList " USA ".toList " Crime Drama".toList
    (by decide) (by decide) (by decide) (by decide) (by decide)
  exact ⟨m, h, h1, h2.trans (by decide), h3.trans (by decide), h4.trans (by decide)⟩

/-- C3: for every text `t` of the fourth rating span, the `Comment` of the record is `t`
with every character that is not a decimal digit deleted and the digits kept in their
order; so it holds only characters from `0` to `9`. -/
theorem parseMovie_comment_digits (s : Node) (t : Str) (m : Movie)
    (ht : ((s.Find ".bd .star span").Eq 3).Text = t) (h : parseMovie s = .ok m) :
    m.Comment = t.filter Char.isDigit ∧ ∀ c ∈ m.Comment, '0' ≤ c ∧ c ≤ '9' := by
  obtain ⟨d, line, y, r, g, restL, restP, _, _, rfl⟩ := parseMovie_ok_inv s m h
  have hc : (movieOfParts s d y r g).Comment = t.filter Char.isDigit := by
    simp only [movieOfParts, Join_FindAllString, filter_isDigit_TrimSpace, ht]
  refine ⟨hc, ?_⟩
  intro c hmem
  rw [hc] at hmem
  have hdig : c.isDigit = true := (List.mem_filter.mp hmem).2
  simp only [Char.isDigit, ge_iff_le, Bool.and_eq_true, decide_eq_true_eq] at hdig
  exact hdig

/-- Witness of C3: the span text `1,234人评价` gives the `Comment` `1234`. -/
theorem parseMovie_comment_digits_witness :
    ∃ m, parseMovie nbspEntry = .ok m ∧ m.Comment = "1234".toList := by
  have h : parseMovie nbspEntry = .ok (movieOfParts nbspEntry "Drama.".toList
      "1994 ".toList " USA ".toList " Crime Drama".toList) :=
    parseMovie_of_BodyShape _ _ _ _ _ (by unfold BodyShape; decide)
  exact ⟨_, h, (parseMovie_comment_digits nbspEntry "1,234人评价".toList _ (by decide) h).1.trans
    (by decide)⟩

/-- C4, as stated, fails: a leading no-break space (U+00A0) is neither a space (U+0020)
nor a slash, yet it is removed from `Subtitle`; and a leading tab, which is white
space, is kept in `Other`. -/
theorem parseMovie_heading_strip_counterexample :
    ∃ m, parseMovie nbspEntry = .ok m ∧
      m.Subtitle = "Xiao Shen Ke".toList ∧
      ¬ StripsLeadingRun isSpaceOrSlash "\u00a0/\u00a0Xiao Shen Ke".toList m.Subtitle ∧
      m.Other = "\t/ Stimulus 1995".toList ∧
      ¬ StripsLeadingRun isWhiteOrSlash "\t/ Stimulus 1995".toList m.Other := by
  have h : parseMovie nbspEntry = .ok (movieOfParts nbspEntry "Drama.".toList
      "1994 ".toList " USA ".toList " Crime Drama".toList) :=
    parseMovie_of_BodyShape _ _ _ _ _ (by unfold BodyShape; decide)
  refine ⟨_, h, by decide, ?_, by decide, ?_⟩
  · rw [StripsLeadingRun_iff]; decide
  · rw [StripsLeadingRun_iff]; decide

/-- C4, amended: `Subtitle` and `Other` are the texts of the second and third heading
span without their longest leading run of spaces (U+0020), no-break spaces (U+00A0) and
slashes; the rest of the text is unchanged. -/
theorem parseMovie_heading_strip (s : Node) (t1 t2 : Str) (m : Movie)
    (h1 : ((s.Find ".hd a span").Eq 1).Text = t1)
    (h2 : ((s.Find ".hd a span").Eq 2).Text = t2) (h : parseMovie s = .ok m) :
    StripsLeadingRun isHeadingSeparator t1 m.Subtitle ∧
      StripsLeadingRun isHeadingSeparator t2 m.Other := by
  obtain ⟨d, line, y, r, g, restL, restP, _, _, rfl⟩ := parseMovie_ok_inv s m h
  constructor
  · rw [StripsLeadingRun_iff, ← TrimLeft_headingCutset, ← h1]; rfl
  · rw [StripsLeadingRun_iff, ← TrimLeft_headingCutset, ← h2]; rfl

/-- Witness of C4 (amended): the span text `  / Amores Perros` gives `Amores Perros`. -/
theorem parseMovie_heading_strip_witness :
    ∃ m, parseMovie (entry ["Amores perros", "  / Amores Perros", "  / Love Is a Bitch"]
        ["Drama.\n2000 / Mexico / Drama Thriller"] [] [] []) = .ok m ∧
      StripsLeadingRun isHeadingSeparator "  / Amores Perros".toList m.Subtitle ∧
      StripsLeadingRun isHeadingSeparator "  / Love Is a Bitch".toList m.Other ∧
      m.Subtitle = "Amores Perros".toList ∧ m.Other = "Love Is a Bitch".toList := by
  have h : parseMovie (entry ["Amores perros", "  / Amores Perros", "  / Love Is a Bitch"]
      ["Drama.\n2000 / Mexico / Drama Thriller"] [] [] []) =
      .ok (movieOfParts (entry ["Amores perros", "  / Amores Perros", "  / Love Is a Bitch"]
        ["Drama.\n2000 / Mexico / Drama Thriller"] [] [] []) "Drama.".toList
        "2000 ".toList " Mexico ".toList " Drama Thriller".toList) :=
    parseMovie_of_BodyShape _ _ _ _ _ (by unfold BodyShape; decide)
  have hs := parseMovie_heading_strip _ "  / Amores Perros".toList
    "  / Love Is a Bitch".toList _ (by decide) (by decide) h
  exact ⟨_, h, hs.1, hs.2, by decide, by decide⟩

/-! ## Claims on the crawl -/

/-- C5: on a fresh crawler, when the first page is fetched, discovery succeeds and every
discovered page is fetched and extracted (page `i` to the records `mss[i]`), the run
succeeds and the accumulated movies are the concatenation of the `mss[i]` in discovery
order, nothing reordered or dropped; the pages are requested in that order and the
records reported in that order. With 9 paginator links and 25 records on each page
there are exactly 250 records. -/
theorem printTop250Movies_fresh_accumulates (c : MovieCrawler) (net : Net) (pDoc : Node)
    (c1 : MovieCrawler) (mss : List (List Movie))
    (hpages : c.pages = []) (hmovies : c.movies = [])
    (hfirst : net 0 c.targetUrl = .document pDoc)
    (hdisc : c.parsePages pDoc = .ok c1)
    (hcrawl : PagesCrawled net c.targetUrl 1 c1.pages mss) :
    ∃ c2 w2, c.printTop250Movies net World.init = (.ok c2, w2) ∧
      c2.movies = mss.flatten ∧ c2.pages = c1.pages ∧
      w2.requests = c.targetUrl :: c1.pages.map (fun p => c.targetUrl ++ p.Url) ∧
      w2.logged = report mss.flatten ∧
      ((pDoc.Find paginatorSelector).length = 9 → (∀ ms ∈ mss, ms.length = 25) →
        c2.movies.length = 250) := by
  obtain ⟨ps, hps, hc1⟩ := (parsePages_ok_iff c c1 pDoc).mp hdisc
  have ht : c1.targetUrl = c.targetUrl := by rw [hc1]
  have hm : c1.movies = [] := by rw [hc1]; exact hmovies
  have hrun : c.printTop250Movies net World.init =
      (.ok { c1 with movies := c1.movies ++ mss.flatten },
        { requests := [c.targetUrl] ++ c1.pages.map (fun p => c.targetUrl ++ p.Url),
          logged := [] ++ report ({ c1 with movies := c1.movies ++ mss.flatten }).movies }) := by
    simp only [MovieCrawler.printTop250Movies, hmovies, List.length_nil, if_true]
    rw [fetchPages_document c net World.init pDoc hfirst]
    simp only [hdisc, MovieCrawler.Pages]
    rw [crawlPages_of_PagesCrawled net c.targetUrl 1 c1.pages mss hcrawl c1
      { requests := World.init.requests ++ [c.targetUrl], logged := World.init.logged } ht rfl]
    rfl
  refine ⟨_, _, hrun, by simp [hm], rfl, by simp, by simp [hm], ?_⟩
  intro h9 h25
  have hlen : mss.length = 10 := by
    rw [PagesCrawled_length _ _ _ _ _ hcrawl, hc1]
    simp [hpages, ← hps.length_eq, h9]
  simp only [hm, List.nil_append]
  rw [length_flatten_of_forall_length mss 25 h25, hlen]

/-- Witness of C5: the site of two pages, with two records and one record. -/
theorem printTop250Movies_fresh_accumulates_witness :
    ∃ c2 w2, NewMovieCrawler.printTop250Movies twoPageSite World.init = (.ok c2, w2) ∧
      c2.movies.map Movie.Title = ["A".toList, "B".toList, "C".toList] ∧
      c2.pages = [{ Page := 1, Url := [] }, { Page := 2, Url := "?start=25&filter=".toList }] ∧
      w2.requests = ["https://movie.douban.com/top250".toList,
        "https://movie.douban.com/top250".toList,
        "https://movie.douban.com/top250?start=25&filter=".toList] ∧
      w2.logged.map (fun x => (x.1, x.2.Title)) =
        [(1, "A".toList), (2, "B".toList), (3, "C".toList)] := by
  obtain ⟨c2, w2, h, hm, hp, hr, hl, _⟩ := printTop250Movies_fresh_accumulates
    NewMovieCrawler twoPageSite
    (listingPage [("2", "?start=25&filter=")]
      [entry ["A"] ["Drama.\n1994 / USA / Crime"] ["9.7"] ["", "9.7", "", "3人评价"] ["Hope."],
       entry ["B"] ["Drama.\n1993 / China / Drama"] ["9.6"] ["", "9.6", "", "2人评价"] []])
    { NewMovieCrawler with
      pages := [{ Page := 1, Url := [] }, { Page := 2, Url := "?start=25&filter=".toList }] }
    [[movieOfParts (entry ["A"] ["Drama.\n1994 / USA / Crime"] ["9.7"]
        ["", "9.7", "", "3人评价"] ["Hope."]) "Drama.".toList "1994 ".toList " USA ".toList
        " Crime".toList,
      movieOfParts (entry ["B"] ["Drama.\n1993 / China / Drama"] ["9.6"]
        ["", "9.6", "", "2人评价"] []) "Drama.".toList "1993 ".toList " China ".toList
        " Drama".toList],
     [movieOfParts (entry ["C"] ["Drama.\n1997 / Italy / War"] ["9.5"]
        ["", "9.5", "", "1人评价"] []) "Drama.".toList "1997 ".toList " Italy ".toList
        " War".toList]]
    rfl rfl rfl rfl
    (PagesCrawled.cons rfl
      (List.Forall₂.cons (parseMovie_of_BodyShape _ _ _ _ _ (by unfold BodyShape; decide))
        (List.Forall₂.cons (parseMovie_of_BodyShape _ _ _ _ _ (by unfold BodyShape; decide))
          List.Forall₂.nil))
      (PagesCrawled.cons rfl
        (List.Forall₂.cons (parseMovie_of_BodyShape _ _ _ _ _ (by unfold BodyShape; decide))
          List.Forall₂.nil)
        (PagesCrawled.nil 3)))
  refine ⟨c2, w2, h, ?_, hp, ?_, ?_⟩
  · rw [hm]; decide
  · rw [hr]; decide
  · rw [hl]; decide

/-- C6, as stated, fails: on the site without entries the first run succeeds with no
movie accumulated, and the second run fetches again (three more requests: the first
page, then page 1 twice) and appends a second page-1 descriptor to the page list. -/
theorem printTop250Movies_again_counterexample :
    ∃ c1 w1 c2 w2, NewMovieCrawler.printTop250Movies emptySite World.init = (.ok c1, w1) ∧
      c1.printTop250Movies emptySite w1 = (.ok c2, w2) ∧
      c1.movies = [] ∧ c1.pages = [{ Page := 1, Url := [] }] ∧ w1.requests.length = 2 ∧
      c2.pages = [{ Page := 1, Url := [] }, { Page := 1, Url := [] }] ∧
      w2.requests.length = 5 :=
  ⟨{ NewMovieCrawler with pages := [{ Page := 1, Url := [] }] },
    { requests := [NewMovieCrawler.targetUrl, NewMovieCrawler.targetUrl], logged := [] },
    { NewMovieCrawler with pages := [{ Page := 1, Url := [] }, { Page := 1, Url := [] }] },
    { requests := [NewMovieCrawler.targetUrl, NewMovieCrawler.targetUrl,
        NewMovieCrawler.targetUrl, NewMovieCrawler.targetUrl, NewMovieCrawler.targetUrl],
      logged := [] },
    rfl, rfl, rfl, rfl, rfl, rfl, rfl⟩

/-- C6, amended: when a run of `printTop250Movies` ends successfully with at least one
accumulated movie, running it again (whatever the network would answer) issues no
request, leaves the crawler, so its movies and its page list, exactly as it was, and
reports the same records, which are the ones the first run reported last. -/
theorem printTop250Movies_again (c : MovieCrawler) (net net2 : Net) (w : World)
    (c1 : MovieCrawler) (w1 : World)
    (hrun : c.printTop250Movies net w = (.ok c1, w1)) (hne : c1.movies ≠ []) :
    c1.printTop250Movies net2 w1 =
        (.ok c1, { requests := w1.requests, logged := w1.logged ++ report c1.movies }) ∧
      report c1.movies <:+ w1.logged := by
  constructor
  · have hlen : ¬ c1.movies.length = 0 := by
      intro h0; exact hne (List.length_eq_zero.mp h0)
    simp only [MovieCrawler.printTop250Movies, hlen, if_false]
  · simp only [MovieCrawler.printTop250Movies] at hrun
    split at hrun
    · cases hrun
    · rename_i c2 w2 _
      have h1 := (Prod.mk.inj hrun).1
      have h2 := (Prod.mk.inj hrun).2
      have hc : c2 = c1 := Except.ok.inj h1
      subst hc
      rw [← h2]
      exact List.suffix_append _ _

/-- Witness of C6 (amended): the second run on the site of two pages. -/
theorem printTop250Movies_again_witness :
    ∃ c1 w1, NewMovieCrawler.printTop250Movies twoPageSite World.init = (.ok c1, w1) ∧
      c1.movies ≠ [] ∧
      c1.printTop250Movies emptySite w1 =
        (.ok c1, { requests := w1.requests, logged := w1.logged ++ report c1.movies }) ∧
      report c1.movies <:+ w1.logged := by
  obtain ⟨c1, w1, h, hne⟩ : ∃ c1 w1,
      NewMovieCrawler.printTop250Movies twoPageSite World.init = (.ok c1, w1) ∧
        c1.movies ≠ [] := ⟨_, _, rfl, by decide⟩
  exact ⟨c1, w1, h, hne, printTop250Movies_again NewMovieCrawler twoPageSite emptySite
    World.init c1 w1 h hne⟩

/-! ## Claims on absent nodes and on the discovered set -/

/-- C7, as stated, fails: for an entry whose body paragraph is absent (all other nodes
present) `parseMovies` produces no record; the index expression `DescInfo[1]` panics. -/
theorem parseMovie_absent_body_counterexample :
    parseMovie (entry ["A", " / B", " / C"] [] ["9.7"] ["", "9.7", "", "3人评价"] ["Hope."])
        = .error (.indexOutOfRange 1 1) ∧
      ¬ ∃ m, parseMovie
        (entry ["A", " / B", " / C"] [] ["9.7"] ["", "9.7", "", "3人评价"] ["Hope."]) = .ok m := by
  have h : parseMovie
      (entry ["A", " / B", " / C"] [] ["9.7"] ["", "9.7", "", "3人评价"] ["Hope."])
      = .error (.indexOutOfRange 1 1) := rfl
  refine ⟨h, ?_⟩
  rintro ⟨m, hm⟩
  rw [h] at hm
  cases hm

/-- C7, amended: for every entry node whose body paragraph is present with a text of the
documented shape, whichever of its heading spans, rating nodes or quote region are
absent, `parseMovies` produces a record for it, the field of each absent node is the
empty string, and every other field is extracted from its node. -/
theorem parseMovie_absent_nodes (s : Node) (d y r g : Str)
    (hbody : BodyShape ((s.Find ".bd p").Eq 0).Text d y r g) :
    ∃ m, parseMovie s = .ok m ∧
      ((s.Find ".hd a span")[0]? = none → m.Title = []) ∧
      ((s.Find ".hd a span")[1]? = none → m.Subtitle = []) ∧
      ((s.Find ".hd a span")[2]? = none → m.Other = []) ∧
      (s.Find ".bd .star .rating_num" = [] → m.Star = []) ∧
      ((s.Find ".bd .star span")[3]? = none → m.Comment = []) ∧
      (s.Find ".quote .inq" = [] → m.Quote = []) ∧
      (∀ n, (s.Find ".hd a span")[0]? = some n → m.Title = n.Text) ∧
      (∀ n, (s.Find ".hd a span")[1]? = some n → m.Subtitle = TrimLeft n.Text headingCutset) ∧
      (∀ n, (s.Find ".hd a span")[2]? = some n → m.Other = TrimLeft n.Text headingCutset) ∧
      m.Star = (s.Find ".bd .star .rating_num").Text ∧
      (∀ n, (s.Find ".bd .star span")[3]? = some n → m.Comment = n.Text.filter Char.isDigit) ∧
      m.Quote = (s.Find ".quote .inq").Text ∧
      m.Desc = d ∧ m.Year = TrimSpace y ∧ m.Area = TrimSpace r ∧ m.Tag = TrimSpace g := by
  refine ⟨_, parseMovie_of_BodyShape s d y r g hbody, ?_, ?_, ?_, ?_, ?_, ?_, ?_, ?_, ?_, rfl, ?_,
    rfl, rfl, rfl, rfl, rfl⟩
  · intro h
    exact Selection.Text_Eq_of_none _ 0 0 rfl h
  · intro h
    simp only [movieOfParts, Selection.Text_Eq_of_none _ 1 1 rfl h, TrimLeft_nil]
  · intro h
    simp only [movieOfParts, Selection.Text_Eq_of_none _ 2 2 rfl h, TrimLeft_nil]
  · intro h
    simp only [movieOfParts, h]
    rfl
  · intro h
    simp only [movieOfParts, Selection.Text_Eq_of_none _ 3 3 rfl h,
      Join_FindAllString_TrimSpace_nil]
  · intro h
    simp only [movieOfParts, h]
    rfl
  · intro n h
    exact Selection.Text_Eq_of_some _ 0 0 rfl n h
  · intro n h
    simp only [movieOfParts, Selection.Text_Eq_of_some _ 1 1 rfl n h]
  · intro n h
    simp only [movieOfParts, Selection.Text_Eq_of_some _ 2 2 rfl n h]
  · intro n h
    simp only [movieOfParts, Selection.Text_Eq_of_some _ 3 3 rfl n h, Join_FindAllString,
      filter_isDigit_TrimSpace]

/-- Witness of C7 (amended): an entry with one heading span and a body paragraph only. -/
theorem parseMovie_absent_nodes_witness :
    ∃ m, parseMovie (entry ["A"] ["Drama.\n1994 / USA / Crime"] [] [] []) = .ok m ∧
      m.Title = "A".toList ∧ m.Subtitle = [] ∧ m.Other = [] ∧ m.Star = [] ∧ m.Comment = [] ∧
      m.Quote = [] ∧ m.Desc = "Drama.".toList ∧ m.Year = "1994".toList := by
  obtain ⟨m, h, _, h1, h2, h3, h4, h5, h6, _, _, _, _, _, h7, h8, _, _⟩ :=
    parseMovie_absent_nodes (entry ["A"] ["Drama.\n1994 / USA / Crime"] [] [] [])
      "Drama.".toList "1994 ".toList " USA ".toList " Crime".toList
      (by unfold BodyShape; decide)
  exact ⟨m, h, h6 (leaf "A" []) rfl, h1 rfl, h2 rfl, h3 rfl, h4 rfl, h5 rfl, h7,
    h8.trans (by decide)⟩

/-- C8: for every entry node with `k` heading spans (in particular `k < 3`) and a body
text of the documented shape, `parseMovies` produces a record; each of `Title`,
`Subtitle`, `Other` whose index is `k` or more is the empty string, and each whose index
is below `k` is taken from the span at that index. -/
theorem parseMovie_missing_heading_spans (s : Node) (k : Nat) (d y r g : Str)
    (hk : (s.Find ".hd a span").length = k)
    (hbody : BodyShape ((s.Find ".bd p").Eq 0).Text d y r g) :
    ∃ m, parseMovie s = .ok m ∧
      (k ≤ 0 → m.Title = []) ∧ (k ≤ 1 → m.Subtitle = []) ∧ (k ≤ 2 → m.Other = []) ∧
      (0 < k → ∃ n, (s.Find ".hd a span")[0]? = some n ∧ m.Title = n.Text) ∧
      (1 < k → ∃ n, (s.Find ".hd a span")[1]? = some n ∧
        m.Subtitle = TrimLeft n.Text headingCutset) ∧
      (2 < k → ∃ n, (s.Find ".hd a span")[2]? = some n ∧
        m.Other = TrimLeft n.Text headingCutset) := by
  have hnone : ∀ i, k ≤ i → (s.Find ".hd a span")[i]? = none := by
    intro i hi
    exact List.getElem?_eq_none (by omega)
  have hsome : ∀ i, i < k → ∃ n, (s.Find ".hd a span")[i]? = some n := by
    intro i hi
    exact ⟨(s.Find ".hd a span")[i], List.getElem?_eq_getElem (by omega)⟩
  refine ⟨_, parseMovie_of_BodyShape s d y r g hbody, ?_, ?_, ?_, ?_, ?_, ?_⟩
  · intro h
    exact Selection.Text_Eq_of_none _ 0 0 rfl (hnone 0 h)
  · intro h
    simp only [movieOfParts, Selection.Text_Eq_of_none _ 1 1 rfl (hnone 1 h), TrimLeft_nil]
  · intro h
    simp only [movieOfParts, Selection.Text_Eq_of_none _ 2 2 rfl (hnone 2 h), TrimLeft_nil]
  · intro h
    obtain ⟨n, hn⟩ := hsome 0 h
    exact ⟨n, hn, Selection.Text_Eq_of_some _ 0 0 rfl n hn⟩
  · intro h
    obtain ⟨n, hn⟩ := hsome 1 h
    exact ⟨n, hn, by simp only [movieOfParts, Selection.Text_Eq_of_some _ 1 1 rfl n hn]⟩
  · intro h
    obtain ⟨n, hn⟩ := hsome 2 h
    exact ⟨n, hn, by simp only [movieOfParts, Selection.Text_Eq_of_some _ 2 2 rfl n hn]⟩

/-- Witness of C8: an entry with two heading spans. -/
theorem parseMovie_missing_heading_spans_witness :
    ∃ m, parseMovie (entry ["A", "  / B"] ["Drama.\n1994 / USA / Crime"] [] [] []) = .ok m ∧
      m.Title = "A".toList ∧ m.Subtitle = "B".toList ∧ m.Other = [] := by
  obtain ⟨m, h, _, _, h2, h3, h4, _⟩ :=
    parseMovie_missing_heading_spans
      (entry ["A", "  / B"] ["Drama.\n1994 / USA / Crime"] [] [] []) 2
      "Drama.".toList "1994 ".toList " USA ".toList " Crime".toList rfl
      (by unfold BodyShape; decide)
  obtain ⟨n0, hn0, ht⟩ := h3 (by decide)
  obtain ⟨n1, hn1, hs⟩ := h4 (by decide)
  have e0 : n0 = leaf "A" [] := (Option.some.inj hn0).symm
  have e1 : n1 = leaf "  / B" [] := (Option.some.inj hn1).symm
  subst e0 e1
  exact ⟨m, h, ht, hs.trans (by decide), h2 (by decide)⟩

/-- C9, as stated, fails: discovery succeeds on a first page whose paginator holds a
link with the text `1`, and the page list then holds `Page 1` twice. -/
theorem parsePages_numbers_counterexample :
    ∃ c1, NewMovieCrawler.parsePages
        (firstPage [("1", "?start=0&filter="), ("2", "?start=25&filter=")]) = .ok c1 ∧
      c1.pages.map PageInfo.Page = [1, 1, 2] ∧
      ¬ (c1.pages.map PageInfo.Page).Nodup ∧
      (c1.pages.filter (fun p => p.Page = 1)).length = 2 :=
  ⟨{ NewMovieCrawler with
      pages := [{ Page := 1, Url := [] }, { Page := 1, Url := "?start=0&filter=".toList },
        { Page := 2, Url := "?start=25&filter=".toList }] },
    rfl, by decide, by decide, by decide⟩

/-- C9, amended: when `parsePages` succeeds from a crawler without pages, the first
descriptor is the page-1 seed, the `Page` values are 1 followed by the numbers of the
paginator links in document order, and they are pairwise distinct exactly when the link
numbers are pairwise distinct and none of them is 1. -/
theorem parsePages_numbers_nodup_iff (c c1 : MovieCrawler) (doc : Node)
    (hfresh : c.pages = []) (h : c.parsePages doc = .ok c1) :
    c1.pages[0]? = some { Page := 1, Url := [] } ∧
      c1.pages.map PageInfo.Page
        = 1 :: (doc.Find paginatorSelector).filterMap (fun l => Atoi l.Text) ∧
      ((c1.pages.map PageInfo.Page).Nodup ↔
        ((doc.Find paginatorSelector).filterMap (fun l => Atoi l.Text)).Nodup ∧
          (1 : Int) ∉ (doc.Find paginatorSelector).filterMap (fun l => Atoi l.Text)) := by
  obtain ⟨ps, hps, hc1⟩ := (parsePages_ok_iff c c1 doc).mp h
  have hmap : c1.pages.map PageInfo.Page
      = 1 :: (doc.Find paginatorSelector).filterMap (fun l => Atoi l.Text) := by
    rw [hc1, Forall₂_LinkPage_numbers _ _ hps]
    simp [hfresh]
  refine ⟨by rw [hc1]; simp [hfresh], hmap, ?_⟩
  rw [hmap, List.nodup_cons]
  exact And.comm

/-- Witness of C9 (amended): the links `2` and `3`. -/
theorem parsePages_numbers_nodup_iff_witness :
    ∃ c1, NewMovieCrawler.parsePages
        (firstPage [("2", "?start=25&filter="), ("3", "?start=50&filter=")]) = .ok c1 ∧
      c1.pages[0]? = some { Page := 1, Url := [] } ∧
      c1.pages.map PageInfo.Page = [1, 2, 3] ∧ (c1.pages.map PageInfo.Page).Nodup := by
  obtain ⟨c1, h⟩ : ∃ c1, NewMovieCrawler.parsePages
      (firstPage [("2", "?start=25&filter="), ("3", "?start=50&filter=")]) = .ok c1 :=
    ⟨_, rfl⟩
  obtain ⟨h0, hmap, hiff⟩ := parsePages_numbers_nodup_iff NewMovieCrawler c1
    (firstPage [("2", "?start=25&filter="), ("3", "?start=50&filter=")]) rfl h
  exact ⟨c1, h, h0, hmap.trans (by decide), hiff.mpr (by decide)⟩

/-- C10, as stated, fails: the link texts `0` and `-2` are not positive integers, yet
discovery does not abort, and the page list holds `Page 0` and `Page -2`. -/
theorem parsePages_nonpositive_counterexample :
    ∃ c1, NewMovieCrawler.parsePages
        (firstPage [("0", "?start=0&filter="), ("-2", "?start=25&filter=")]) = .ok c1 ∧
      c1.pages.map PageInfo.Page = [1, 0, -2] ∧ ∃ p ∈ c1.pages, ¬ (1 ≤ p.Page) :=
  ⟨{ NewMovieCrawler with
      pages := [{ Page := 1, Url := [] }, { Page := 0, Url := "?start=0&filter=".toList },
        { Page := -2, Url := "?start=25&filter=".toList }] },
    rfl, by decide, { Page := 0, Url := "?start=0&filter=".toList }, by decide, by decide⟩

/-- C10, amended: `parsePages` aborts (`log.Fatalf`, exit status 1, no page list) exactly
when some paginator link has a text that `Atoi` rejects or has no `href` attribute; the
descriptors of a successful discovery from a crawler without pages are the page-1 seed
and, for each link, the value `Atoi` gave its text, a 64-bit integer of either sign. -/
theorem parsePages_error_iff (c : MovieCrawler) (doc : Node) :
    ((∃ f, c.parsePages doc = .error f) ↔
        ∃ l ∈ doc.Find paginatorSelector, Atoi l.Text = none ∨ l.Attr hrefKey = none) ∧
      (∀ f, c.parsePages doc = .error f → f.status = 1) ∧
      (∀ c1, c.parsePages doc = .ok c1 → c.pages = [] → ∀ p ∈ c1.pages,
        (p = { Page := 1, Url := [] } ∨
          ∃ l ∈ doc.Find paginatorSelector, Atoi l.Text = some p.Page ∧
            l.Attr hrefKey = some p.Url) ∧
        -(2 ^ 63 : Int) ≤ p.Page ∧ p.Page < (2 ^ 63 : Int)) := by
  refine ⟨?_, ?_, ?_⟩
  · rw [← parsePagesEach_error_iff (doc.Find paginatorSelector)
      (c.pages ++ [{ Page := 1, Url := [] }])]
    simp only [MovieCrawler.parsePages]
    cases parsePagesEach (doc.Find paginatorSelector) (c.pages ++ [{ Page := 1, Url := [] }]) with
    | error f => simp
    | ok out => simp
  · intro f hf
    simp only [MovieCrawler.parsePages] at hf
    cases h : parsePagesEach (doc.Find paginatorSelector)
        (c.pages ++ [{ Page := 1, Url := [] }]) with
    | error f2 =>
      rw [h] at hf
      have e : f2 = f := Except.error.inj hf
      subst e
      exact parsePagesEach_error_status _ _ _ h
    | ok out =>
      rw [h] at hf
      cases hf
  · intro c1 h hfresh p hp
    obtain ⟨ps, hps, hc1⟩ := (parsePages_ok_iff c c1 doc).mp h
    rw [hc1] at hp
    simp only [hfresh, List.nil_append, List.mem_cons] at hp
    rcases hp with rfl | hp
    · exact ⟨Or.inl rfl, by norm_num, by norm_num⟩
    · obtain ⟨l, hl, hlp⟩ := Forall₂_LinkPage_mem _ _ hps p hp
      exact ⟨Or.inr ⟨l, hl, hlp.1, hlp.2⟩, Atoi_range _ _ hlp.1⟩

/-! ## Lemmas on the pieces of a split -/

theorem Split_eq_cons (s : Str) (sep : Char) :
    Split s sep = pieceBefore sep s :: (if sep ∈ s then Split (pieceAfter sep s) sep else []) := by
  induction s with
  | nil => simp [Split, pieceBefore]
  | cons c rest ih =>
    by_cases hc : c = sep
    · subst hc
      simp [Split, pieceBefore, pieceAfter, List.takeWhile_cons, List.dropWhile_cons]
    · have hne : (c != sep) = true := by simpa using hc
      have hmem : (sep ∈ c :: rest) ↔ sep ∈ rest := by
        simp only [List.mem_cons]
        constructor
        · rintro (h | h)
          · exact absurd h.symm hc
          · exact h
        · exact Or.inr
      have hafter : pieceAfter sep (c :: rest) = pieceAfter sep rest := by
        simp [pieceAfter, List.dropWhile_cons, hne]
      have hbefore : pieceBefore sep (c :: rest) = c :: pieceBefore sep rest := by
        simp [pieceBefore, List.takeWhile_cons, hne]
      rw [Split, if_neg hc, ih, hafter, hbefore]
      by_cases hm : sep ∈ rest
      · simp [hm, hmem]
      · simp [hm, hmem]

theorem count_pieceAfter (s : Str) (sep : Char) (h : sep ∈ s) :
    (pieceAfter sep s).count sep + 1 = s.count sep := by
  induction s with
  | nil => simp at h
  | cons c rest ih =>
    by_cases hc : c = sep
    · subst hc
      simp [pieceAfter, List.dropWhile_cons]
    · have hne : (c != sep) = true := by simpa using hc
      have hr : sep ∈ rest := by
        rcases List.mem_cons.mp h with e | e
        · exact absurd e.symm hc
        · exact e
      have hafter : pieceAfter sep (c :: rest) = pieceAfter sep rest := by
        simp [pieceAfter, List.dropWhile_cons, hne]
      rw [hafter, ih hr, List.count_cons_of_ne (fun e => hc e.symm)]

theorem mem_iff_count_pos (s : Str) (sep : Char) : sep ∈ s ↔ 0 < s.count sep :=
  List.count_pos_iff.symm

theorem Split_of_count_zero (s : Str) (sep : Char) (h : s.count sep = 0) :
    Split s sep = [s] :=
  Split_of_not_mem s sep (fun hm => by have := (mem_iff_count_pos s sep).mp hm; omega)

theorem Split_of_count_pos (s : Str) (sep : Char) (h : 0 < s.count sep) :
    Split s sep = pieceBefore sep s :: Split (pieceAfter sep s) sep := by
  rw [Split_eq_cons, if_pos ((mem_iff_count_pos s sep).mpr h)]

theorem Split_of_count_one (s : Str) (sep : Char) (h : s.count sep = 1) :
    Split s sep = [nthPiece sep 0 s, nthPiece sep 1 s] := by
  have hm : sep ∈ s := (mem_iff_count_pos s sep).mpr (by omega)
  have h1 : (pieceAfter sep s).count sep = 0 := by
    have := count_pieceAfter s sep hm; omega
  rw [Split_of_count_pos s sep (by omega), Split_of_count_zero _ sep h1]
  simp only [nthPiece, pieceBefore]
  have hn : sep ∉ pieceAfter sep s := fun hx => by
    have := (mem_iff_count_pos _ sep).mp hx; omega
  congr 2
  symm
  rw [List.takeWhile_eq_self_iff]
  intro c hc
  have : c ≠ sep := fun e => hn (e ▸ hc)
  simpa using this

theorem Split_of_two_le_count (s : Str) (sep : Char) (h : 2 ≤ s.count sep) :
    ∃ rest, Split s sep = nthPiece sep 0 s :: nthPiece sep 1 s :: nthPiece sep 2 s :: rest := by
  have hm : sep ∈ s := (mem_iff_count_pos s sep).mpr (by omega)
  have h1 : 1 ≤ (pieceAfter sep s).count sep := by
    have := count_pieceAfter s sep hm; omega
  rw [Split_of_count_pos s sep (by omega), Split_of_count_pos _ sep (by omega),
    Split_eq_cons (pieceAfter sep (pieceAfter sep s))]
  exact ⟨_, rfl⟩

theorem Split_newline_of_mem (t : Str) (h : '\n' ∈ t) :
    ∃ rest, Split t '\n' = nthPiece '\n' 0 t :: secondLine t :: rest := by
  rw [Split_of_count_pos t '\n' ((mem_iff_count_pos t '\n').mp h),
    Split_eq_cons (pieceAfter '\n' t)]
  exact ⟨_, rfl⟩

/-! ## Lemmas on the failure of the body split -/

theorem parseMovie_error_of_one_line (s : Node) (d : Str)
    (h1 : Split (bodyText s) '\n' = [d]) :
    parseMovie s = .error (.indexOutOfRange 1 1) := by
  unfold bodyText at h1
  simp only [parseMovie, h1, index, List.get?, List.length_singleton]

theorem parseMovie_error_of_one_part (s : Node) (d line y : Str) (restL : List Str)
    (h1 : Split (bodyText s) '\n' = d :: line :: restL) (h2 : Split line '/' = [y]) :
    parseMovie s = .error (.indexOutOfRange 1 1) := by
  unfold bodyText at h1
  simp only [parseMovie, h1, index, List.get?, h2, List.length_singleton]

theorem parseMovie_error_of_two_parts (s : Node) (d line y r : Str) (restL : List Str)
    (h1 : Split (bodyText s) '\n' = d :: line :: restL) (h2 : Split line '/' = [y, r]) :
    parseMovie s = .error (.indexOutOfRange 2 2) := by
  unfold bodyText at h1
  simp only [parseMovie, h1, index, List.get?, h2, List.length_cons, List.length_nil]

theorem parseMovie_error_of_omitted (s : Node)
    (h : '\n' ∉ bodyText s ∨ (secondLine (bodyText s)).count '/' < 2) :
    parseMovie s = .error (.indexOutOfRange 1 1) ∨
      parseMovie s = .error (.indexOutOfRange 2 2) := by
  by_cases hn : '\n' ∈ bodyText s
  · obtain ⟨restL, hL⟩ := Split_newline_of_mem (bodyText s) hn
    have hc : (secondLine (bodyText s)).count '/' < 2 := by
      rcases h with h | h
      · exact absurd hn h
      · exact h
    by_cases h0 : (secondLine (bodyText s)).count '/' = 0
    · exact Or.inl (parseMovie_error_of_one_part s _ _ _ restL hL
        (Split_of_count_zero _ '/' h0))
    · exact Or.inr (parseMovie_error_of_two_parts s _ _ _ _ restL hL
        (Split_of_count_one _ '/' (by omega)))
  · exact Or.inl (parseMovie_error_of_one_line s _ (Split_of_not_mem _ '\n' hn))

theorem parseMovie_ok_of_separators (s : Node) (hn : '\n' ∈ bodyText s)
    (hc : 2 ≤ (secondLine (bodyText s)).count '/') :
    parseMovie s = .ok (movieOfParts s (nthPiece '\n' 0 (bodyText s))
      (nthPiece '/' 0 (secondLine (bodyText s))) (nthPiece '/' 1 (secondLine (bodyText s)))
      (nthPiece '/' 2 (secondLine (bodyText s)))) := by
  obtain ⟨restL, hL⟩ := Split_newline_of_mem (bodyText s) hn
  obtain ⟨restP, hP⟩ := Split_of_two_le_count (secondLine (bodyText s)) '/' hc
  exact parseMovie_of_Split s _ _ _ _ _ restL restP hL hP

/-! ## Claims on the failure of the body split -/

/-- C11, as stated, fails: with a separator added (a third slash in the second line and
a second newline) the trimmed body text no longer has exactly two lines and exactly two
slashes, yet `parseMovies` produces a record; the further part and the further line are
dropped. -/
theorem parseMovie_added_separator_counterexample :
    ∃ m, parseMovie
        (entry ["T"] ["Drama.\n1994 / USA / Crime / Drama\nDirector: X"] [] [] []) = .ok m ∧
      (bodyText (entry ["T"] ["Drama.\n1994 / USA / Crime / Drama\nDirector: X"] [] [] [])).count
        '\n' = 2 ∧
      (secondLine (bodyText
        (entry ["T"] ["Drama.\n1994 / USA / Crime / Drama\nDirector: X"] [] [] []))).count
        '/' = 3 ∧
      m.Desc = "Drama.".toList ∧ m.Year = "1994".toList ∧ m.Area = "USA".toList ∧
      m.Tag = "Crime".toList :=
  ⟨_, parseMovie_ok_of_separators
      (entry ["T"] ["Drama.\n1994 / USA / Crime / Drama\nDirector: X"] [] [] [])
      (by decide) (by decide),
    by decide, by decide, by decide, by decide, by decide, by decide⟩

/-- C11, amended: for every entry whose trimmed body text has a separator omitted, that
is, it contains no newline or its second line contains fewer than two slashes,
`parseMovies` produces no record and fails with an index-out-of-range fault: index 2 of
length 2 when the only defect is a single slash in the second line, index 1 of length 1
otherwise. -/
theorem parseMovie_separator_omitted (s : Node)
    (h : '\n' ∉ bodyText s ∨ (secondLine (bodyText s)).count '/' < 2) :
    (parseMovie s =
        if '\n' ∈ bodyText s ∧ (secondLine (bodyText s)).count '/' = 1
        then .error (.indexOutOfRange 2 2) else .error (.indexOutOfRange 1 1)) ∧
      ¬ ∃ m, parseMovie s = .ok m := by
  have key : parseMovie s =
      if '\n' ∈ bodyText s ∧ (secondLine (bodyText s)).count '/' = 1
      then .error (.indexOutOfRange 2 2) else .error (.indexOutOfRange 1 1) := by
    by_cases hn : '\n' ∈ bodyText s
    · obtain ⟨restL, hL⟩ := Split_newline_of_mem (bodyText s) hn
      have hc : (secondLine (bodyText s)).count '/' < 2 := by
        rcases h with h | h
        · exact absurd hn h
        · exact h
      by_cases h1 : (secondLine (bodyText s)).count '/' = 1
      · rw [if_pos ⟨hn, h1⟩]
        exact parseMovie_error_of_two_parts s _ _ _ _ restL hL (Split_of_count_one _ '/' h1)
      · rw [if_neg (fun hx => h1 hx.2)]
        exact parseMovie_error_of_one_part s _ _ _ restL hL
          (Split_of_count_zero _ '/' (by omega))
    · rw [if_neg (fun hx => hn hx.1)]
      exact parseMovie_error_of_one_line s _ (Split_of_not_mem _ '\n' hn)
  refine ⟨key, ?_⟩
  rintro ⟨m, hm⟩
  rw [key] at hm
  split at hm <;> cases hm

/-- Witness of C11 (amended): the second slash of the second line is omitted. -/
theorem parseMovie_separator_omitted_witness :
    parseMovie (entry ["T"] ["Drama.\n1994 / USA"] [] [] []) = .error (.indexOutOfRange 2 2) ∧
      ¬ ∃ m, parseMovie (entry ["T"] ["Drama.\n1994 / USA"] [] [] []) = .ok m := by
  have h := parseMovie_separator_omitted (entry ["T"] ["Drama.\n1994 / USA"] [] [] [])
    (Or.inr (by decide))
  refine ⟨h.1.trans ?_, h.2⟩
  rw [if_pos (by decide)]

/-- C14: `parseMovies` fails on an entry exactly when the trimmed body text contains no
newline or its second line contains fewer than two slashes, and the fault is then an
index out of range; when it succeeds, `Desc` is the first line and `Year`, `Area`, `Tag`
are the trimmed first three slash-separated parts of the second line, so they depend on
nothing else: further lines and further parts are ignored. -/
theorem parseMovie_error_iff (s : Node) :
    ((∃ f, parseMovie s = .error f) ↔
        ('\n' ∉ bodyText s ∨ (secondLine (bodyText s)).count '/' < 2)) ∧
      (∀ f, parseMovie s = .error f → ∃ i n, f = .indexOutOfRange i n) ∧
      (∀ m, parseMovie s = .ok m →
        m.Desc = nthPiece '\n' 0 (bodyText s) ∧
        m.Year = TrimSpace (nthPiece '/' 0 (secondLine (bodyText s))) ∧
        m.Area = TrimSpace (nthPiece '/' 1 (secondLine (bodyText s))) ∧
        m.Tag = TrimSpace (nthPiece '/' 2 (secondLine (bodyText s)))) := by
  by_cases hcond : '\n' ∉ bodyText s ∨ (secondLine (bodyText s)).count '/' < 2
  · have herr := parseMovie_error_of_omitted s hcond
    refine ⟨⟨fun _ => hcond, fun _ => ?_⟩, ?_, ?_⟩
    · rcases herr with e | e
      · exact ⟨_, e⟩
      · exact ⟨_, e⟩
    · intro f hf
      rcases herr with e | e
      · rw [e] at hf; exact ⟨1, 1, (Except.error.inj hf).symm⟩
      · rw [e] at hf; exact ⟨2, 2, (Except.error.inj hf).symm⟩
    · intro m hm
      rcases herr with e | e
      · rw [e] at hm; cases hm
      · rw [e] at hm; cases hm
  · have hn : '\n' ∈ bodyText s := by
      by_contra hx; exact hcond (Or.inl hx)
    have hc : 2 ≤ (secondLine (bodyText s)).count '/' := by
      by_contra hx; exact hcond (Or.inr (by omega))
    have hok := parseMovie_ok_of_separators s hn hc
    refine ⟨⟨fun ⟨f, hf⟩ => ?_, fun h => absurd h hcond⟩, ?_, ?_⟩
    · rw [hok] at hf; cases hf
    · intro f hf
      rw [hok] at hf; cases hf
    · intro m hm
      rw [hok] at hm
      have e := Except.ok.inj hm
      rw [← e]
      simp only [movieOfParts, and_self]

/-! ## Lemmas on failing runs -/

theorem exitWithErrorf_status_ne_zero (format a : Str) :
    (exitWithErrorf format a).status ≠ 0 := by
  show (1 : Nat) ≠ 0
  decide

theorem handleRequest_logged (net : Net) (url : Str) (w : World) :
    (handleRequest net url w).2.logged = w.logged := by
  unfold handleRequest
  cases net w.requests.length url <;> rfl

theorem handleRequest_error_status (net : Net) (url : Str) (w : World) (f : Fault)
    (w1 : World) (h : handleRequest net url w = (.error f, w1)) : f.status ≠ 0 := by
  unfold handleRequest at h
  cases hr : net w.requests.length url <;> rw [hr] at h <;> simp only [Prod.mk.injEq] at h
  · obtain ⟨h1, _⟩ := h
    rw [← Except.error.inj h1]; decide
  · obtain ⟨h1, _⟩ := h
    rw [← Except.error.inj h1]; exact exitWithErrorf_status_ne_zero _ _
  · obtain ⟨h1, _⟩ := h
    cases h1
  · obtain ⟨h1, _⟩ := h
    cases h1

theorem handleRequest_failed (net : Net) (url : Str) (w : World)
    (h : (net w.requests.length url).failed = true) :
    (∃ f w1, handleRequest net url w = (.error f, w1)) ∨
      ∃ e w1, handleRequest net url w = (.ok (.error e), w1) := by
  unfold handleRequest
  cases hr : net w.requests.length url with
  | badRequest e => exact Or.inl ⟨_, _, rfl⟩
  | transportError e => exact Or.inl ⟨_, _, rfl⟩
  | malformed e => exact Or.inr ⟨_, _, rfl⟩
  | document doc => rw [hr] at h; cases h

theorem fetchPages_logged (c : MovieCrawler) (net : Net) (w : World) :
    (c.fetchPages net w).2.logged = w.logged := by
  have h := handleRequest_logged net c.targetUrl w
  unfold MovieCrawler.fetchPages
  rcases hr : handleRequest net c.targetUrl w with ⟨r, w1⟩
  rw [hr] at h
  rcases r with f | (e | doc) <;> exact h

theorem fetchMovies_logged (c : MovieCrawler) (net : Net) (page : PageInfo) (w : World) :
    (c.fetchMovies net page w).2.logged = w.logged := by
  have h := handleRequest_logged net (Join [c.targetUrl, page.Url] []) w
  simp only [MovieCrawler.fetchMovies]
  rcases hr : handleRequest net (Join [c.targetUrl, page.Url] []) w with ⟨r, w1⟩
  rw [hr] at h
  rcases r with f | (e | doc) <;> exact h

theorem fetchPages_error_status (c : MovieCrawler) (net : Net) (w : World) (f : Fault)
    (w1 : World) (h : c.fetchPages net w = (.error f, w1)) : f.status ≠ 0 := by
  unfold MovieCrawler.fetchPages at h
  rcases hr : handleRequest net c.targetUrl w with ⟨r, w2⟩
  rw [hr] at h
  rcases r with f2 | (e | doc)
  · simp only [Prod.mk.injEq] at h
    rw [← Except.error.inj h.1]
    exact handleRequest_error_status net _ w f2 w2 hr
  · simp only [Prod.mk.injEq] at h
    rw [← Except.error.inj h.1]; exact exitWithErrorf_status_ne_zero _ _
  · simp only [Prod.mk.injEq] at h
    cases h.1

theorem fetchMovies_error_status (c : MovieCrawler) (net : Net) (page : PageInfo) (w : World)
    (f : Fault) (w1 : World) (h : c.fetchMovies net page w = (.error f, w1)) :
    f.status ≠ 0 := by
  simp only [MovieCrawler.fetchMovies] at h
  rcases hr : handleRequest net (Join [c.targetUrl, page.Url] []) w with ⟨r, w2⟩
  rw [hr] at h
  rcases r with f2 | (e | doc)
  · simp only [Prod.mk.injEq] at h
    rw [← Except.error.inj h.1]
    exact handleRequest_error_status net _ w f2 w2 hr
  · simp only [Prod.mk.injEq] at h
    rw [← Except.error.inj h.1]; exact exitWithErrorf_status_ne_zero _ _
  · simp only [Prod.mk.injEq] at h
    cases h.1

theorem fetchPages_failed (c : MovieCrawler) (net : Net) (w : World)
    (h : (net w.requests.length c.targetUrl).failed = true) :
    ∃ f w1, c.fetchPages net w = (.error f, w1) := by
  unfold MovieCrawler.fetchPages
  rcases handleRequest_failed net c.targetUrl w h with ⟨f, w1, hr⟩ | ⟨e, w1, hr⟩
  · rw [hr]; exact ⟨_, _, rfl⟩
  · rw [hr]; exact ⟨_, _, rfl⟩

theorem fetchMovies_failed (c : MovieCrawler) (net : Net) (page : PageInfo) (w : World)
    (h : (net w.requests.length (c.targetUrl ++ page.Url)).failed = true) :
    ∃ f w1, c.fetchMovies net page w = (.error f, w1) := by
  have hj : Join [c.targetUrl, page.Url] [] = c.targetUrl ++ page.Url := by simp [Join]
  simp only [MovieCrawler.fetchMovies, hj]
  rcases handleRequest_failed net (c.targetUrl ++ page.Url) w h with ⟨f, w1, hr⟩ | ⟨e, w1, hr⟩
  · rw [hr]; exact ⟨_, _, rfl⟩
  · rw [hr]; exact ⟨_, _, rfl⟩

theorem parseMovie_error_status (s : Node) (f : Fault) (h : parseMovie s = .error f) :
    f.status = 2 := by
  by_cases hcond : '\n' ∉ bodyText s ∨ (secondLine (bodyText s)).count '/' < 2
  · rcases parseMovie_error_of_omitted s hcond with e | e
    · rw [e] at h; rw [← Except.error.inj h]; rfl
    · rw [e] at h; rw [← Except.error.inj h]; rfl
  · have hn : '\n' ∈ bodyText s := by
      by_contra hx; exact hcond (Or.inl hx)
    have hc : 2 ≤ (secondLine (bodyText s)).count '/' := by
      by_contra hx; exact hcond (Or.inr (by omega))
    rw [parseMovie_ok_of_separators s hn hc] at h
    cases h

theorem parseMoviesEach_error_status (entries : Selection) (acc : List Movie) (f : Fault)
    (h : parseMoviesEach entries acc = .error f) : f.status = 2 := by
  induction entries generalizing acc with
  | nil => simp [parseMoviesEach] at h
  | cons s rest ih =>
    unfold parseMoviesEach at h
    cases hs : parseMovie s with
    | error f2 =>
      simp only [hs] at h
      rw [← Except.error.inj h]
      exact parseMovie_error_status s f2 hs
    | ok m =>
      simp only [hs] at h
      exact ih _ h

theorem parseMovies_error_status (c : MovieCrawler) (doc : Node) (f : Fault)
    (h : c.parseMovies doc = .error f) : f.status = 2 := by
  unfold MovieCrawler.parseMovies at h
  cases hs : parseMoviesEach (doc.Find entrySelector) [] with
  | error f2 =>
    simp only [hs] at h
    rw [← Except.error.inj h]
    exact parseMoviesEach_error_status _ _ f2 hs
  | ok ms =>
    simp only [hs] at h
    cases h

theorem parseMovies_ok_inv (c c1 : MovieCrawler) (doc : Node)
    (h : c.parseMovies doc = .ok c1) :
    ∃ ms, c1 = { c with movies := c.movies ++ ms } := by
  unfold MovieCrawler.parseMovies at h
  cases hs : parseMoviesEach (doc.Find entrySelector) [] with
  | error f2 =>
    simp only [hs] at h
    cases h
  | ok ms =>
    simp only [hs] at h
    exact ⟨ms, (Except.ok.inj h).symm⟩

theorem crawlPages_logged (net : Net) (pages : List PageInfo) (c : MovieCrawler) (w : World) :
    (crawlPages net pages c w).2.logged = w.logged := by
  induction pages generalizing c w with
  | nil => rfl
  | cons page rest ih =>
    unfold crawlPages
    have hl := fetchMovies_logged c net page w
    rcases hf : c.fetchMovies net page w with ⟨r, w1⟩
    rw [hf] at hl
    rcases r with f | mDoc
    · exact hl
    · simp only
      cases hp : c.parseMovies mDoc with
      | error f => exact hl
      | ok c1 =>
        simp only
        rw [ih c1 w1]
        exact hl

theorem crawlPages_error_status (net : Net) (pages : List PageInfo) (c : MovieCrawler)
    (w : World) (f : Fault) (w1 : World) (h : crawlPages net pages c w = (.error f, w1)) :
    f.status ≠ 0 := by
  induction pages generalizing c w with
  | nil =>
    simp only [crawlPages, Prod.mk.injEq] at h
    cases h.1
  | cons page rest ih =>
    unfold crawlPages at h
    rcases hf : c.fetchMovies net page w with ⟨r, w2⟩
    rw [hf] at h
    rcases r with f2 | mDoc
    · simp only [Prod.mk.injEq] at h
      rw [← Except.error.inj h.1]
      exact fetchMovies_error_status c net page w f2 w2 hf
    · simp only at h
      cases hp : c.parseMovies mDoc with
      | error f2 =>
        rw [hp] at h
        simp only [Prod.mk.injEq] at h
        rw [← Except.error.inj h.1, parseMovies_error_status c mDoc f2 hp]
        decide
      | ok c1 =>
        rw [hp] at h
        exact ih c1 w2 h

theorem crawlPages_ok_inv (net : Net) (pages : List PageInfo) (c : MovieCrawler) (w : World)
    (c1 : MovieCrawler) (w1 : World) (h : crawlPages net pages c w = (.ok c1, w1)) :
    c1.pages = c.pages ∧ c1.targetUrl = c.targetUrl ∧ ∃ ms, c1.movies = c.movies ++ ms := by
  induction pages generalizing c w with
  | nil =>
    simp only [crawlPages, Prod.mk.injEq] at h
    rw [← Except.ok.inj h.1]
    exact ⟨rfl, rfl, [], by simp⟩
  | cons page rest ih =>
    unfold crawlPages at h
    rcases hf : c.fetchMovies net page w with ⟨r, w2⟩
    rw [hf] at h
    rcases r with f2 | mDoc
    · simp only [Prod.mk.injEq] at h
      cases h.1
    · simp only at h
      cases hp : c.parseMovies mDoc with
      | error f2 =>
        rw [hp] at h
        simp only [Prod.mk.injEq] at h
        cases h.1
      | ok c2 =>
        rw [hp] at h
        obtain ⟨ms, hc2⟩ := parseMovies_ok_inv c c2 mDoc hp
        obtain ⟨h1, h2, ms2, h3⟩ := ih c2 w2 h
        rw [hc2] at h1 h2 h3
        exact ⟨h1, h2, ms ++ ms2, by rw [h3]; simp⟩

theorem crawlPages_cons_ok (net : Net) (page : PageInfo) (rest : List PageInfo)
    (c : MovieCrawler) (w : World) (mDoc : Node) (w1 : World) (c1 : MovieCrawler)
    (hf : c.fetchMovies net page w = (.ok mDoc, w1)) (hp : c.parseMovies mDoc = .ok c1) :
    crawlPages net (page :: rest) c w = crawlPages net rest c1 w1 := by
  rw [crawlPages, hf]
  simp only [hp]

theorem crawlPages_append_of_PagesCrawled (net : Net) (t : Str) (n : Nat)
    (pre : List PageInfo) (mss : List (List Movie)) (h : PagesCrawled net t n pre mss)
    (rest : List PageInfo) (c : MovieCrawler) (w : World) (ht : c.targetUrl = t)
    (hn : w.requests.length = n) :
    crawlPages net (pre ++ rest) c w =
      crawlPages net rest { c with movies := c.movies ++ mss.flatten }
        { w with requests := w.requests ++ pre.map (fun p => t ++ p.Url) } := by
  induction h generalizing c w with
  | nil n => simp
  | @cons k page pages doc ms mss hfetch hparse _ ih =>
    subst ht
    rw [List.cons_append, crawlPages_cons_ok net page (pages ++ rest) c w doc _ _
      (fetchMovies_document c net page w doc (by rw [hn]; exact hfetch))
      (parseMovies_of_PageMovies c doc ms hparse)]
    rw [ih { c with movies := c.movies ++ ms }
      { w with requests := w.requests ++ [c.targetUrl ++ page.Url] } rfl (by simp [hn])]
    simp

theorem crawlPages_head_failed (net : Net) (page : PageInfo) (post : List PageInfo)
    (c : MovieCrawler) (w : World)
    (h : (net w.requests.length (c.targetUrl ++ page.Url)).failed = true) :
    ∃ f w1, crawlPages net (page :: post) c w = (.error f, w1) := by
  obtain ⟨f, w1, hf⟩ := fetchMovies_failed c net page w h
  unfold crawlPages
  rw [hf]
  exact ⟨_, _, rfl⟩

theorem parsePages_error_status (c : MovieCrawler) (doc : Node) (f : Fault)
    (h : c.parsePages doc = .error f) : f.status = 1 := by
  simp only [MovieCrawler.parsePages] at h
  cases hp : parsePagesEach (doc.Find paginatorSelector)
      (c.pages ++ [{ Page := 1, Url := [] }]) with
  | error f2 =>
    rw [hp] at h
    rw [← Except.error.inj h]
    exact parsePagesEach_error_status _ _ _ hp
  | ok out =>
    rw [hp] at h
    cases h

theorem printTop250Movies_error_inv (c : MovieCrawler) (net : Net) (w : World) (f : Fault)
    (w1 : World) (h : c.printTop250Movies net w = (.error f, w1)) :
    f.status ≠ 0 ∧ w1.logged = w.logged := by
  by_cases hm : c.movies.length = 0
  · rcases hfp : c.fetchPages net w with ⟨r, w2⟩
    have hl2 : w2.logged = w.logged := by
      have := fetchPages_logged c net w
      rw [hfp] at this
      exact this
    rcases r with f2 | pDoc
    · simp only [MovieCrawler.printTop250Movies, hm, if_true, hfp, Prod.mk.injEq] at h
      rw [← Except.error.inj h.1, ← h.2]
      exact ⟨fetchPages_error_status c net w f2 w2 hfp, hl2⟩
    · cases hpp : c.parsePages pDoc with
      | error f2 =>
        simp only [MovieCrawler.printTop250Movies, hm, if_true, hfp, hpp, Prod.mk.injEq] at h
        rw [← Except.error.inj h.1, ← h.2, parsePages_error_status c pDoc f2 hpp]
        exact ⟨by decide, hl2⟩
      | ok c1 =>
        rcases hcp : crawlPages net c1.Pages c1 w2 with ⟨r3, w3⟩
        have hl3 : w3.logged = w2.logged := by
          have := crawlPages_logged net c1.Pages c1 w2
          rw [hcp] at this
          exact this
        rcases r3 with f3 | c3
        · simp only [MovieCrawler.printTop250Movies, hm, if_true, hfp, hpp, hcp,
            Prod.mk.injEq] at h
          rw [← Except.error.inj h.1, ← h.2]
          exact ⟨crawlPages_error_status net _ c1 w2 f3 w3 hcp, hl3.trans hl2⟩
        · simp only [MovieCrawler.printTop250Movies, hm, if_true, hfp, hpp, hcp,
            Prod.mk.injEq] at h
          cases h.1
  · simp only [MovieCrawler.printTop250Movies, hm, if_false, Prod.mk.injEq] at h
    cases h.1

theorem printTop250Movies_error_of_FetchFails (c : MovieCrawler) (net : Net) (w : World)
    (hfail : FetchFails net c w) : ∃ f w1, c.printTop250Movies net w = (.error f, w1) := by
  cases hfail with
  | first hempty hfail =>
    obtain ⟨f, w1, hf⟩ := fetchPages_failed c net w hfail
    refine ⟨f, w1, ?_⟩
    simp only [MovieCrawler.printTop250Movies, hempty, List.length_nil, if_true, hf]
  | later hempty pDoc c1 pre page post mss hfirst hdisc hpages hpre hfail =>
    obtain ⟨ps, _, hc1⟩ := (parsePages_ok_iff c c1 pDoc).mp hdisc
    have ht : c1.targetUrl = c.targetUrl := by rw [hc1]
    have hcrawl := crawlPages_append_of_PagesCrawled net c.targetUrl (w.requests.length + 1)
      pre mss hpre (page :: post) c1
      { requests := w.requests ++ [c.targetUrl], logged := w.logged } ht (by simp)
    obtain ⟨f, w1, hf⟩ := crawlPages_head_failed net page post
      { c1 with movies := c1.movies ++ mss.flatten }
      { requests := (w.requests ++ [c.targetUrl]) ++ pre.map (fun p => c.targetUrl ++ p.Url),
        logged := w.logged }
      (by
        simp only [List.length_append, List.length_map, List.length_singleton, ht]
        exact hfail)
    have hall : crawlPages net c1.pages c1
        { requests := w.requests ++ [c.targetUrl], logged := w.logged } = (.error f, w1) := by
      rw [hpages, hcrawl]
      exact hf
    refine ⟨f, w1, ?_⟩
    simp only [MovieCrawler.printTop250Movies, hempty, List.length_nil, if_true,
      fetchPages_document c net w pDoc hfirst, hdisc, MovieCrawler.Pages, hall]

/-! ## Claims on failing runs and on the exit routine -/

/-- C12: for every run of `printTop250Movies` in which some page fetch fails, that of the
first page or that of a discovered page after any number of pages fetched and extracted
successfully, the run ends in a fault with a non-zero exit status and reports no record:
the lines logged are those logged before the run. -/
theorem printTop250Movies_fetch_failure (c : MovieCrawler) (net : Net) (w : World)
    (hfail : FetchFails net c w) :
    ∃ f w1, c.printTop250Movies net w = (.error f, w1) ∧ f.status ≠ 0 ∧
      w1.logged = w.logged := by
  obtain ⟨f, w1, h⟩ := printTop250Movies_error_of_FetchFails c net w hfail
  exact ⟨f, w1, h, printTop250Movies_error_inv c net w f w1 h⟩

/-- Witness of C12: the second page cannot be reached after the first page was fetched,
discovered and extracted; the run exits with status 1 and logs nothing. -/
theorem printTop250Movies_fetch_failure_witness :
    ∃ f w1, NewMovieCrawler.printTop250Movies brokenSite World.init = (.error f, w1) ∧
      f.status ≠ 0 ∧ w1.logged = [] :=
  printTop250Movies_fetch_failure NewMovieCrawler brokenSite World.init
    (FetchFails.later rfl
      (listingPage [("2", "?start=25&filter=")]
        [entry ["A"] ["Drama.\n1994 / USA / Crime"] ["9.7"] ["", "9.7", "", "3人评价"]
          ["Hope."]])
      { NewMovieCrawler with
        pages := [{ Page := 1, Url := [] }, { Page := 2, Url := "?start=25&filter=".toList }] }
      [{ Page := 1, Url := [] }] { Page := 2, Url := "?start=25&filter=".toList } []
      [[movieOfParts (entry ["A"] ["Drama.\n1994 / USA / Crime"] ["9.7"]
        ["", "9.7", "", "3人评价"] ["Hope."]) "Drama.".toList "1994 ".toList " USA ".toList
        " Crime".toList]]
      rfl rfl rfl
      (PagesCrawled.cons rfl
        (List.Forall₂.cons (parseMovie_of_BodyShape _ _ _ _ _ (by unfold BodyShape; decide))
          List.Forall₂.nil)
        (PagesCrawled.nil 2))
      rfl)

/-- C13: `exitWithError` ends the process in both branches (its value is the fault, it
does not return): the exit status is 0 exactly when the error is nil, and for every
non-nil error it is 1, after `Error: ` and the error message were written to the error
stream; `exitWithErrorf` always passes a non-nil error, so it exits with status 1. -/
theorem exitWithError_status (err : Option Str) :
    ((exitWithError err).status = 0 ↔ err = none) ∧
      (∀ e, err = some e →
        exitWithError err = .osExit 1 ("Error: ".toList ++ e ++ "\n".toList) ∧
          (exitWithError err).status = 1) ∧
      (err = none → exitWithError err = .osExit 0 []) ∧
      ∀ format a, (exitWithErrorf format a).status = 1 := by
  refine ⟨?_, ?_, ?_, fun _ _ => rfl⟩
  · cases err with
    | none => simp [exitWithError, Fault.status]
    | some e => simp [exitWithError, Fault.status]
  · intro e he
    subst he
    exact ⟨rfl, rfl⟩
  · intro he
    subst he
    rfl

/-! ## Lemmas on repeated discovery -/

theorem Forall₂_LinkPage_unique (links : Selection) (ps qs : List PageInfo)
    (hp : List.Forall₂ LinkPage links ps) (hq : List.Forall₂ LinkPage links qs) : ps = qs := by
  induction hp generalizing qs with
  | nil => cases hq; rfl
  | @cons l p rest ps hl _ ih =>
    cases hq with
    | @cons _ q _ qs hl2 hq2 =>
      have e1 : p.Page = q.Page := Option.some.inj (hl.1.symm.trans hl2.1)
      have e2 : p.Url = q.Url := Option.some.inj (hl.2.symm.trans hl2.2)
      have e : p = q := by
        cases p; cases q
        simp only [PageInfo.mk.injEq]
        exact ⟨e1, e2⟩
      rw [e, ih qs hq2]

theorem parsePagesTimes_ok (doc : Node) (ps : List PageInfo)
    (hps : List.Forall₂ LinkPage (doc.Find paginatorSelector) ps) (k : Nat)
    (c : MovieCrawler) :
    parsePagesTimes doc k c =
      .ok { c with pages := c.pages ++ (List.replicate k (seedPage :: ps)).flatten } := by
  induction k generalizing c with
  | zero => simp [parsePagesTimes]
  | succ j ih =>
    have h1 : c.parsePages doc = .ok { c with pages := c.pages ++ seedPage :: ps } :=
      (parsePages_ok_iff c _ doc).mpr ⟨ps, hps, rfl⟩
    rw [parsePagesTimes, h1]
    simp only [ih, List.replicate_succ, List.flatten_cons, List.append_assoc]

theorem length_flatten_replicate (k : Nat) (l : List PageInfo) :
    (List.replicate k l).flatten.length = k * l.length := by
  induction k with
  | zero => simp
  | succ j ih =>
    rw [List.replicate_succ, List.flatten_cons, List.length_append, ih]
    ring

theorem count_flatten_replicate (k : Nat) (l : List PageInfo) (a : PageInfo) :
    (List.replicate k l).flatten.count a = k * l.count a := by
  induction k with
  | zero => simp
  | succ j ih =>
    rw [List.replicate_succ, List.flatten_cons, List.count_append, ih]
    ring

theorem countP_flatten_replicate (k : Nat) (l : List PageInfo) (P : PageInfo → Bool) :
    (List.replicate k l).flatten.countP P = k * l.countP P := by
  induction k with
  | zero => simp
  | succ j ih =>
    rw [List.replicate_succ, List.flatten_cons, List.countP_append, ih]
    ring

/-! ## Lemmas on the requests of a run -/

theorem handleRequest_requests (net : Net) (url : Str) (w : World) :
    w.requests <+: (handleRequest net url w).2.requests ∧
      ((∀ e, net w.requests.length url ≠ .badRequest e) →
        (handleRequest net url w).2.requests = w.requests ++ [url]) := by
  unfold handleRequest
  cases hr : net w.requests.length url with
  | badRequest e =>
    exact ⟨List.prefix_refl _, fun h => absurd rfl (h e)⟩
  | transportError e => exact ⟨List.prefix_append _ _, fun _ => rfl⟩
  | malformed e => exact ⟨List.prefix_append _ _, fun _ => rfl⟩
  | document doc => exact ⟨List.prefix_append _ _, fun _ => rfl⟩

theorem fetchPages_requests (c : MovieCrawler) (net : Net) (w : World) :
    (c.fetchPages net w).2.requests = (handleRequest net c.targetUrl w).2.requests := by
  unfold MovieCrawler.fetchPages
  rcases handleRequest net c.targetUrl w with ⟨r, w1⟩
  rcases r with f | (e | doc) <;> rfl

theorem fetchMovies_requests (c : MovieCrawler) (net : Net) (page : PageInfo) (w : World) :
    w.requests <+: (c.fetchMovies net page w).2.requests := by
  have h := (handleRequest_requests net (Join [c.targetUrl, page.Url] []) w).1
  simp only [MovieCrawler.fetchMovies]
  rcases hr : handleRequest net (Join [c.targetUrl, page.Url] []) w with ⟨r, w1⟩
  rw [hr] at h
  rcases r with f | (e | doc) <;> exact h

theorem crawlPages_requests (net : Net) (pages : List PageInfo) (c : MovieCrawler)
    (w : World) : w.requests <+: (crawlPages net pages c w).2.requests := by
  induction pages generalizing c w with
  | nil => exact List.prefix_refl _
  | cons page rest ih =>
    unfold crawlPages
    have hl := fetchMovies_requests c net page w
    rcases hf : c.fetchMovies net page w with ⟨r, w1⟩
    rw [hf] at hl
    rcases r with f | mDoc
    · exact hl
    · simp only
      cases hp : c.parseMovies mDoc with
      | error f => exact hl
      | ok c1 =>
        simp only
        exact hl.trans (ih c1 w1)

theorem printTop250Movies_requests (c : MovieCrawler) (net : Net) (w : World)
    (hempty : c.movies = [])
    (hreq : ∀ e, net w.requests.length c.targetUrl ≠ .badRequest e) :
    (w.requests ++ [c.targetUrl]) <+: (c.printTop250Movies net w).2.requests := by
  have hfr : (c.fetchPages net w).2.requests = w.requests ++ [c.targetUrl] := by
    rw [fetchPages_requests]
    exact (handleRequest_requests net c.targetUrl w).2 hreq
  rcases hfp : c.fetchPages net w with ⟨r, w2⟩
  rw [hfp] at hfr
  simp only at hfr
  rcases r with f2 | pDoc
  · simp only [MovieCrawler.printTop250Movies, hempty, List.length_nil, if_true, hfp]
    rw [hfr]
  · cases hpp : c.parsePages pDoc with
    | error f2 =>
      simp only [MovieCrawler.printTop250Movies, hempty, List.length_nil, if_true, hfp, hpp]
      rw [hfr]
    | ok cP =>
      have hcr := crawlPages_requests net cP.Pages cP w2
      rcases hcp : crawlPages net cP.Pages cP w2 with ⟨r3, w3⟩
      rw [hcp] at hcr
      simp only at hcr
      rw [hfr] at hcr
      rcases r3 with f3 | c3
      · simp only [MovieCrawler.printTop250Movies, hempty, List.length_nil, if_true, hfp,
          hpp, hcp]
        exact hcr
      · simp only [MovieCrawler.printTop250Movies, hempty, List.length_nil, if_true, hfp,
          hpp, hcp]
        exact hcr

theorem printTop250Movies_ok_inv (c : MovieCrawler) (net : Net) (w : World)
    (c1 : MovieCrawler) (w1 : World) (h : c.printTop250Movies net w = (.ok c1, w1)) :
    (c.movies ≠ [] ∧ c1 = c) ∨
      (c.movies = [] ∧ ∃ pDoc cP ps,
        c.parsePages pDoc = .ok cP ∧ c1.pages = c.pages ++ seedPage :: ps ∧
        c1.targetUrl = c.targetUrl) := by
  by_cases hm : c.movies.length = 0
  · right
    have hempty : c.movies = [] := List.length_eq_zero.mp hm
    refine ⟨hempty, ?_⟩
    rcases hfp : c.fetchPages net w with ⟨r, w2⟩
    rcases r with f2 | pDoc
    · simp only [MovieCrawler.printTop250Movies, hm, if_true, hfp, Prod.mk.injEq] at h
      cases h.1
    · cases hpp : c.parsePages pDoc with
      | error f2 =>
        simp only [MovieCrawler.printTop250Movies, hm, if_true, hfp, hpp, Prod.mk.injEq] at h
        cases h.1
      | ok cP =>
        rcases hcp : crawlPages net cP.Pages cP w2 with ⟨r3, w3⟩
        rcases r3 with f3 | c3
        · simp only [MovieCrawler.printTop250Movies, hm, if_true, hfp, hpp, hcp,
            Prod.mk.injEq] at h
          cases h.1
        · simp only [MovieCrawler.printTop250Movies, hm, if_true, hfp, hpp, hcp,
            Prod.mk.injEq] at h
          have e : c3 = c1 := Except.ok.inj h.1
          subst e
          obtain ⟨hp1, ht1, _⟩ := crawlPages_ok_inv net cP.Pages cP w2 c3 w3 hcp
          obtain ⟨ps, _, hcP⟩ := (parsePages_ok_iff c cP pDoc).mp hpp
          refine ⟨pDoc, cP, ps, hpp, ?_, ?_⟩
          · rw [hp1, hcP]; rfl
          · rw [ht1, hcP]
  · left
    have hne : c.movies ≠ [] := fun e => hm (by rw [e]; rfl)
    simp only [MovieCrawler.printTop250Movies, hm, if_false, Prod.mk.injEq] at h
    exact ⟨hne, (Except.ok.inj h.1).symm⟩

theorem fetchPages_ok_inv (c : MovieCrawler) (net : Net) (w : World) (pDoc : Node)
    (w2 : World) (h : c.fetchPages net w = (.ok pDoc, w2)) :
    net w.requests.length c.targetUrl = .document pDoc := by
  unfold MovieCrawler.fetchPages handleRequest at h
  cases hr : net w.requests.length c.targetUrl with
  | badRequest e =>
    rw [hr] at h
    simp only [Prod.mk.injEq] at h
    cases h.1
  | transportError e =>
    rw [hr] at h
    simp only [Prod.mk.injEq] at h
    cases h.1
  | malformed e =>
    rw [hr] at h
    simp only [Prod.mk.injEq] at h
    cases h.1
  | document doc =>
    rw [hr] at h
    simp only [Prod.mk.injEq] at h
    rw [Except.ok.inj h.1]

theorem printTop250Movies_ok_fetched (c : MovieCrawler) (net : Net) (w : World)
    (c1 : MovieCrawler) (w1 : World) (h : c.printTop250Movies net w = (.ok c1, w1))
    (hempty : c.movies = []) :
    ∃ pDoc ps, net w.requests.length c.targetUrl = .document pDoc ∧
      List.Forall₂ LinkPage (pDoc.Find paginatorSelector) ps ∧
      c1.pages = c.pages ++ seedPage :: ps ∧
      (w.requests ++ [c.targetUrl]) <+: w1.requests := by
  have hm : c.movies.length = 0 := by rw [hempty]; rfl
  rcases hfp : c.fetchPages net w with ⟨r, w2⟩
  rcases r with f2 | pDoc
  · simp only [MovieCrawler.printTop250Movies, hm, if_true, hfp, Prod.mk.injEq] at h
    cases h.1
  · have hnet := fetchPages_ok_inv c net w pDoc w2 hfp
    have hreq : (w.requests ++ [c.targetUrl]) <+: (c.printTop250Movies net w).2.requests :=
      printTop250Movies_requests c net w hempty (fun e he => by rw [hnet] at he; cases he)
    rw [h] at hreq
    cases hpp : c.parsePages pDoc with
    | error f2 =>
      simp only [MovieCrawler.printTop250Movies, hm, if_true, hfp, hpp, Prod.mk.injEq] at h
      cases h.1
    | ok cP =>
      rcases hcp : crawlPages net cP.Pages cP w2 with ⟨r3, w3⟩
      rcases r3 with f3 | c3
      · simp only [MovieCrawler.printTop250Movies, hm, if_true, hfp, hpp, hcp,
          Prod.mk.injEq] at h
        cases h.1
      · simp only [MovieCrawler.printTop250Movies, hm, if_true, hfp, hpp, hcp,
          Prod.mk.injEq] at h
        have e : c3 = c1 := Except.ok.inj h.1
        subst e
        obtain ⟨hp1, _, _⟩ := crawlPages_ok_inv net cP.Pages cP w2 c3 w3 hcp
        obtain ⟨ps, hps, hcP⟩ := (parsePages_ok_iff c cP pDoc).mp hpp
        refine ⟨pDoc, ps, hnet, hps, ?_, hreq⟩
        rw [hp1, hcP]; rfl

theorem printTop250Movies_badRequest (c : MovieCrawler) (net : Net) (w : World) (e : Str)
    (hempty : c.movies = []) (h : net w.requests.length c.targetUrl = .badRequest e) :
    c.printTop250Movies net w = (.error .nilDereference, w) := by
  simp only [MovieCrawler.printTop250Movies, hempty, List.length_nil, if_true,
    MovieCrawler.fetchPages, handleRequest, h]

/-! ## Claims on repeated discovery -/

/-- C15, as stated, fails: on a first page whose paginator holds a link with text `1` and
an empty `href`, two successful calls of `parsePages` from a fresh crawler give the
`2 * (2 + 1)` descriptors, but page 1 occurs four times, not twice. -/
theorem parsePagesTimes_page_one_counterexample :
    ∃ c2, parsePagesTimes (firstPage [("1", ""), ("2", "?start=25&filter=")]) 2
        NewMovieCrawler = .ok c2 ∧
      c2.pages.length = 2 * (2 + 1) ∧
      c2.pages.count seedPage = 4 ∧
      c2.pages.countP (fun p => p.Page = 1) = 4 :=
  ⟨{ NewMovieCrawler with
      pages := [{ Page := 1, Url := [] }, { Page := 1, Url := [] },
        { Page := 2, Url := "?start=25&filter=".toList },
        { Page := 1, Url := [] }, { Page := 1, Url := [] },
        { Page := 2, Url := "?start=25&filter=".toList }] },
    rfl, by decide, by decide, by decide⟩

/-- C15, amended: a successful `parsePages` appends the page-1 seed and the `N` link
descriptors to the page list the crawler already holds, and then every further call on
the same document succeeds too; after `k` calls the list is the earlier list followed by
`k` copies of the seed and the link descriptors, so it has `k * (N + 1)` descriptors
more, and page 1 occurs `k * (1 + j)` times more, `j` being the number of links that are
themselves page 1 (so `k` times when there is none). Consequently, when a run of
`printTop250Movies` ends successfully with no movie, its page list is the list it
started with followed by the seed and the descriptors of the links of the first page it
fetched, and the next run does not reuse that result: it requests the first page again
(when `http.NewRequest` rejects the URL it panics on the nil request instead, without
issuing it), and whenever it succeeds its page list is the earlier list followed by a
new seed and the descriptors of the links of the first page it fetched, so it holds the
page-1 descriptor at least twice. -/
theorem parsePages_accumulates :
    (∀ (c c1 : MovieCrawler) (doc : Node), c.parsePages doc = .ok c1 →
      ∃ ps, List.Forall₂ LinkPage (doc.Find paginatorSelector) ps ∧
        c1.pages = c.pages ++ seedPage :: ps ∧
        ∀ k, ∃ ck, parsePagesTimes doc k c = .ok ck ∧
          ck.pages = c.pages ++ (List.replicate k (seedPage :: ps)).flatten ∧
          ck.pages.length = c.pages.length + k * ((doc.Find paginatorSelector).length + 1) ∧
          ck.pages.count seedPage = c.pages.count seedPage + k * (1 + ps.count seedPage) ∧
          ck.pages.countP (fun p => p.Page = 1) =
            c.pages.countP (fun p => p.Page = 1) +
              k * (1 + ps.countP (fun p => p.Page = 1))) ∧
    (∀ (c c1 : MovieCrawler) (net : Net) (w w1 : World),
      c.printTop250Movies net w = (.ok c1, w1) → c1.movies = [] →
        (∃ pDoc1 ps1, net w.requests.length c.targetUrl = .document pDoc1 ∧
          List.Forall₂ LinkPage (pDoc1.Find paginatorSelector) ps1 ∧
          c1.pages = c.pages ++ seedPage :: ps1) ∧
        seedPage ∈ c1.pages ∧
        ∀ (net2 : Net) (r : Except Fault MovieCrawler) (w2 : World),
          c1.printTop250Movies net2 w1 = (r, w2) →
          ((w1.requests ++ [c1.targetUrl]) <+: w2.requests ∨
            ((∃ e, net2 w1.requests.length c1.targetUrl = .badRequest e) ∧
              r = .error .nilDereference ∧ w2 = w1)) ∧
          ∀ c2, r = .ok c2 →
            ∃ pDoc2 ps2, net2 w1.requests.length c1.targetUrl = .document pDoc2 ∧
              List.Forall₂ LinkPage (pDoc2.Find paginatorSelector) ps2 ∧
              c2.pages = c1.pages ++ seedPage :: ps2 ∧
              (w1.requests ++ [c1.targetUrl]) <+: w2.requests ∧
              2 ≤ c2.pages.count seedPage) := by
  constructor
  · intro c c1 doc h
    obtain ⟨ps, hps, hc1⟩ := (parsePages_ok_iff c c1 doc).mp h
    refine ⟨ps, hps, by rw [hc1]; rfl, ?_⟩
    intro k
    refine ⟨_, parsePagesTimes_ok doc ps hps k c, rfl, ?_, ?_, ?_⟩
    · simp only [List.length_append, length_flatten_replicate, List.length_cons,
        hps.length_eq]
    · simp only [List.count_append, count_flatten_replicate, List.count_cons_self]
      ring
    · simp only [List.countP_append, countP_flatten_replicate]
      have h1 : (seedPage :: ps).countP (fun p => decide (p.Page = 1))
          = 1 + ps.countP (fun p => decide (p.Page = 1)) := by
        rw [List.countP_cons_of_pos]
        · ring
        · decide
      rw [h1]
  · intro c c1 net w w1 hrun hnone
    have hcempty : c.movies = [] := by
      rcases printTop250Movies_ok_inv c net w c1 w1 hrun with ⟨hne, e⟩ | ⟨he, _⟩
      · rw [e] at hnone; exact absurd hnone hne
      · exact he
    obtain ⟨pDoc1, ps1, hnet1, hps1, hp1, _⟩ :=
      printTop250Movies_ok_fetched c net w c1 w1 hrun hcempty
    have hseed : seedPage ∈ c1.pages := by rw [hp1]; simp
    refine ⟨⟨pDoc1, ps1, hnet1, hps1, hp1⟩, hseed, ?_⟩
    intro net2 r w2 hrun2
    constructor
    · by_cases hbad : ∃ e, net2 w1.requests.length c1.targetUrl = .badRequest e
      · right
        obtain ⟨e, he⟩ := hbad
        have hres := printTop250Movies_badRequest c1 net2 w1 e hnone he
        rw [hrun2] at hres
        exact ⟨⟨e, he⟩, (Prod.mk.inj hres).1, (Prod.mk.inj hres).2⟩
      · left
        have hreq := printTop250Movies_requests c1 net2 w1 hnone
          (fun e he => hbad ⟨e, he⟩)
        rw [hrun2] at hreq
        exact hreq
    · intro c2 hr
      subst hr
      obtain ⟨pDoc2, ps2, hnet2, hps2, hp2, hreq2⟩ :=
        printTop250Movies_ok_fetched c1 net2 w1 c2 w2 hrun2 hnone
      refine ⟨pDoc2, ps2, hnet2, hps2, hp2, hreq2, ?_⟩
      rw [hp2, List.count_append, List.count_cons_self]
      have := List.count_pos_iff.mpr hseed
      omega

/-- Witness of C15 (amended): three calls on a first page with the links `2` and `3`;
and two runs, the first on the site without entries, the second on the site of two
pages read as a network that now answers the first page with one link. -/
theorem parsePages_accumulates_witness :
    (∃ c3, parsePagesTimes (firstPage [("2", "?start=25&filter="), ("3", "?start=50&filter=")])
        3 NewMovieCrawler = .ok c3 ∧ c3.pages.length = 9 ∧ c3.pages.count seedPage = 3) ∧
      ∃ c1 w1 c2 w2, NewMovieCrawler.printTop250Movies emptySite World.init = (.ok c1, w1) ∧
        c1.movies = [] ∧
        c1.printTop250Movies twoPageSite w1 = (.ok c2, w2) ∧
        (w1.requests ++ [c1.targetUrl]) <+: w2.requests ∧
        c2.pages = [seedPage, seedPage, { Page := 2, Url := "?start=25&filter=".toList }] ∧
        2 ≤ c2.pages.count seedPage := by
  constructor
  · obtain ⟨c1, h1⟩ : ∃ c1, NewMovieCrawler.parsePages
        (firstPage [("2", "?start=25&filter="), ("3", "?start=50&filter=")]) = .ok c1 :=
      ⟨_, rfl⟩
    obtain ⟨ps, hps, _, hk⟩ := parsePages_accumulates.1 NewMovieCrawler c1 _ h1
    obtain ⟨c3, h3, _, hlen, hcount, _⟩ := hk 3
    have hpsv : ps = [{ Page := 2, Url := "?start=25&filter=".toList },
        { Page := 3, Url := "?start=50&filter=".toList }] :=
      Forall₂_LinkPage_unique _ _ _ hps
        (List.Forall₂.cons ⟨rfl, rfl⟩ (List.Forall₂.cons ⟨rfl, rfl⟩ List.Forall₂.nil))
    refine ⟨c3, h3, hlen, ?_⟩
    rw [hcount, hpsv]
    decide
  · have h1 : NewMovieCrawler.printTop250Movies emptySite World.init =
        (.ok { NewMovieCrawler with pages := [seedPage] },
          { requests := [NewMovieCrawler.targetUrl, NewMovieCrawler.targetUrl],
            logged := [] }) := rfl
    obtain ⟨c2, w2, h2⟩ : ∃ c2 w2,
        MovieCrawler.printTop250Movies { NewMovieCrawler with pages := [seedPage] } twoPageSite
          { requests := [NewMovieCrawler.targetUrl, NewMovieCrawler.targetUrl], logged := [] }
          = (.ok c2, w2) := ⟨_, _, rfl⟩
    obtain ⟨⟨_, _, _, _, hc1pages⟩, _, hnext⟩ := parsePages_accumulates.2 NewMovieCrawler
      { NewMovieCrawler with pages := [seedPage] } emptySite World.init
      { requests := [NewMovieCrawler.targetUrl, NewMovieCrawler.targetUrl], logged := [] }
      h1 rfl
    obtain ⟨_, hpages⟩ := hnext twoPageSite (.ok c2) w2 h2
    obtain ⟨pDoc2, ps2, hnet2, hps2, hp2, hreq, hcount⟩ := hpages c2 rfl
    have hdoc : pDoc2 = listingPage [("2", "?start=25&filter=")]
        [entry ["A"] ["Drama.\n1994 / USA / Crime"] ["9.7"] ["", "9.7", "", "3人评价"]
          ["Hope."],
         entry ["B"] ["Drama.\n1993 / China / Drama"] ["9.6"] ["", "9.6", "", "2人评价"] []] :=
      (Response.document.inj ((rfl : twoPageSite 2 NewMovieCrawler.targetUrl = _).symm.trans
        hnet2)).symm
    have hps2v : ps2 = [{ Page := 2, Url := "?start=25&filter=".toList }] := by
      subst hdoc
      exact Forall₂_LinkPage_unique _ _ _ hps2
        (List.Forall₂.cons ⟨rfl, rfl⟩ List.Forall₂.nil)
    refine ⟨_, _, c2, w2, h1, rfl, h2, hreq, ?_, hcount⟩
    rw [hp2, hps2v]
    rfl

end Top250
